import Mathlib

/-!
Verification development for the actc.live session orchestration engine.

The definitions below are a shallow embedding of the TypeScript sources:

* `src/packages/shared/src/stateMachine.ts` (transition tables and
  `computeEffectiveDuration`),
* `src/packages/shared/src/redaction.ts` (`redactSensitive`),
* the zod validators of the shared package (`sessionConfigSchema`,
  `ensureValidEndAt`),
* `src/apps/desktop/src/main/services/sessionRepository.ts`
  (`SessionRepository` over the sqlite store), and
* the session orchestrator `SessionService` (sessionService.ts):
  `start`, `stop`, `handleProcessExit`, the poll-timer callback,
  `transition`, `complete`, `fail`, `cleanupActive`, `record`.

JavaScript numbers are modelled as rationals (`Rat`); every value of `Rat`
is finite, so the `Number.isFinite` guards of the source are vacuous in the
model except for `Date.parse` returning `NaN`, which is modelled by an
abstract parse function of type `String -> Option Int` (milliseconds since
the epoch; `none` plays the role of `NaN`).  Generated UUIDs and wall-clock
timestamps are threaded in as explicit inputs.  Asynchronous collaborator
calls (ffmpeg, the YouTube API) are modelled by explicit outcome
parameters, and their externally visible side effects are collected in an
effect trace.
-/

namespace Actc

/-- Propositional equality on `Except` values is decidable when it is on
both components (used by the concrete corollaries below). -/
instance {e : Type} {a : Type} [DecidableEq e] [DecidableEq a] :
    DecidableEq (Except e a) := fun x y =>
  match x, y with
  | Except.ok u, Except.ok v =>
    if h : u = v then Decidable.isTrue (by rw [h])
    else Decidable.isFalse (by simp [h])
  | Except.error u, Except.error v =>
    if h : u = v then Decidable.isTrue (by rw [h])
    else Decidable.isFalse (by simp [h])
  | Except.ok _, Except.error _ => Decidable.isFalse (by simp)
  | Except.error _, Except.ok _ => Decidable.isFalse (by simp)

/-! ## Session and stream state machines (stateMachine.ts) -/

/-- The session lifecycle states of `SessionState` in types.ts. -/
inductive SessionState
  | idle
  | preparingClip
  | provisioningYoutube
  | startingFfmpeg
  | testing
  | live
  | stopping
  | completed
  | failed
deriving DecidableEq, Repr, Fintype

/-- The string name of a session state, as it appears in the source. -/
def SessionState.toStr : SessionState → String
  | .idle => "idle"
  | .preparingClip => "preparing-clip"
  | .provisioningYoutube => "provisioning-youtube"
  | .startingFfmpeg => "starting-ffmpeg"
  | .testing => "testing"
  | .live => "live"
  | .stopping => "stopping"
  | .completed => "completed"
  | .failed => "failed"

/-- The `transitions` table of stateMachine.ts. -/
def sessionTransitions : SessionState → List SessionState
  | .idle => [.preparingClip, .failed]
  | .preparingClip => [.provisioningYoutube, .failed]
  | .provisioningYoutube => [.startingFfmpeg, .failed]
  | .startingFfmpeg => [.testing, .failed]
  | .testing => [.live, .stopping, .failed]
  | .live => [.stopping, .failed]
  | .stopping => [.completed, .failed]
  | .completed => []
  | .failed => []

/-- `canTransitionSession` of stateMachine.ts. -/
def canTransitionSession (from_ to_ : SessionState) : Bool :=
  (sessionTransitions from_).contains to_

/-- The remote stream lifecycle states of `StreamLifecycleState` in types.ts. -/
inductive StreamLifecycleState
  | ready
  | testing
  | live
  | complete
deriving DecidableEq, Repr, Fintype

/-- The string name of a stream lifecycle state. -/
def StreamLifecycleState.toStr : StreamLifecycleState → String
  | .ready => "ready"
  | .testing => "testing"
  | .live => "live"
  | .complete => "complete"

/-- The `streamTransitions` table of stateMachine.ts. -/
def streamTransitions : StreamLifecycleState → List StreamLifecycleState
  | .ready => [.testing, .live, .complete]
  | .testing => [.live, .complete]
  | .live => [.complete]
  | .complete => []

/-- `canTransitionStream` of stateMachine.ts. -/
def canTransitionStream (from_ to_ : StreamLifecycleState) : Bool :=
  (streamTransitions from_).contains to_

/-- A session state is terminal when it has no outgoing edges
(`completed` and `failed`). -/
def SessionState.isTerminal : SessionState → Bool
  | .completed => true
  | .failed => true
  | _ => false

/-- Spec-side definition (from the words of the specification, for the
refinement claim about the transition table): the consecutive edges of the
chain idle → preparing-clip → provisioning-youtube → starting-ffmpeg →
testing → live → stopping → completed/failed. -/
def specChainEdges : List (SessionState × SessionState) :=
  [(.idle, .preparingClip),
   (.preparingClip, .provisioningYoutube),
   (.provisioningYoutube, .startingFfmpeg),
   (.startingFfmpeg, .testing),
   (.testing, .live),
   (.live, .stopping),
   (.stopping, .completed),
   (.stopping, .failed)]

/-- Spec-side definition: the edges the specification claims are exactly the
allowed session transitions (chain edges plus every non-terminal state
directly to failed). -/
def specSessionAllowed (from_ to_ : SessionState) : Bool :=
  specChainEdges.contains (from_, to_) ||
    (!from_.isTerminal && to_ == SessionState.failed)

/-- Spec-side definition, amended: the specification edge set together with
the extra edge testing → stopping that the source table also contains. -/
def specSessionAllowedAmended (from_ to_ : SessionState) : Bool :=
  specSessionAllowed from_ to_ ||
    (from_ == SessionState.testing && to_ == SessionState.stopping)

/-! ## Stop-condition resolver (stateMachine.ts, validators.ts)

`computeEffectiveDuration` works on a `StopConditions` record whose
optional numeric fields are tested for JavaScript truthiness
(`if (stop.maxRepeats)` and similar): `undefined` and `0` are falsy, all
other numbers are truthy; the optional string field `endAtIsoUtc` is falsy
exactly when absent or empty. -/

/-- The reason tag of a stop-condition candidate. -/
inductive CandidateReason
  | repeats
  | maxDuration
  | endAt
deriving DecidableEq, Repr

/-- One `(reason, durationSec)` candidate pair. -/
structure Candidate where
  reason : CandidateReason
  durationSec : Rat
deriving DecidableEq, Repr

/-- `StopConditions` of types.ts.  The constant `strategy` discriminator
(always the literal "earliest-wins") is omitted; it carries no data. -/
structure StopConditions where
  maxRepeats : Option Rat := none
  maxDurationSec : Option Rat := none
  endAtIsoUtc : Option String := none
deriving DecidableEq, Repr

/-- `EffectiveDurationInput` of types.ts.  The source defaults a missing
`nowUtcMs` to `Date.now()`; the model always supplies it. -/
structure EffectiveDurationInput where
  clipDurationSec : Rat
  stop : StopConditions
  nowUtcMs : Int
deriving DecidableEq, Repr

/-- `EffectiveDurationComputation` of types.ts. -/
structure EffectiveDurationComputation where
  effectiveDurationSec : Rat
  candidates : List Candidate
deriving DecidableEq, Repr

/-- JavaScript truthiness of an optional number field: `undefined`, `0`
(and `NaN`, which `Rat` cannot represent) are falsy. -/
def truthyNum : Option Rat → Option Rat
  | some v => if v = 0 then none else some v
  | none => none

/-- JavaScript truthiness of an optional string field: `undefined` and the
empty string are falsy. -/
def truthyStr : Option String → Option String
  | some s => if s = "" then none else some s
  | none => none

/-- `assertPositive` of stateMachine.ts.  On `Rat` every value is finite, so
only the sign check remains. -/
def assertPositive (value : Rat) (label : String) : Except String Unit :=
  if value ≤ 0 then Except.error (label ++ " must be a positive number")
  else Except.ok ()

/-- `ensureValidEndAt` of validators.ts: `Date.parse` is the abstract
`parseDate` (with `none` for `NaN`), and the result is
`Math.floor((value - nowUtcMs) / 1000)`. -/
def ensureValidEndAt (parseDate : String → Option Int) (endAtIsoUtc : String)
    (nowUtcMs : Int) : Except String Int :=
  match parseDate endAtIsoUtc with
  | none => Except.error "Invalid endAtIsoUtc"
  | some value => Except.ok (Int.fdiv (value - nowUtcMs) 1000)

/-- The repeats block of `computeEffectiveDuration`
(`if (stop.maxRepeats) ...`). -/
def repeatsCandidates (clipDurationSec : Rat) (stop : StopConditions) :
    Except String (List Candidate) :=
  match truthyNum stop.maxRepeats with
  | some maxRepeats =>
    let repeatsDuration := clipDurationSec * maxRepeats
    match assertPositive repeatsDuration "duration by repeats" with
    | Except.error e => Except.error e
    | Except.ok _ => Except.ok [⟨CandidateReason.repeats, repeatsDuration⟩]
  | none => Except.ok []

/-- The max-duration block of `computeEffectiveDuration`
(`if (stop.maxDurationSec) ...`). -/
def maxDurationCandidates (stop : StopConditions) :
    Except String (List Candidate) :=
  match truthyNum stop.maxDurationSec with
  | some maxDurationSec =>
    match assertPositive maxDurationSec "maxDurationSec" with
    | Except.error e => Except.error e
    | Except.ok _ => Except.ok [⟨CandidateReason.maxDuration, maxDurationSec⟩]
  | none => Except.ok []

/-- The end-at block of `computeEffectiveDuration`
(`if (stop.endAtIsoUtc) ...`). -/
def endAtCandidates (parseDate : String → Option Int) (stop : StopConditions)
    (nowUtcMs : Int) : Except String (List Candidate) :=
  match truthyStr stop.endAtIsoUtc with
  | some iso =>
    match ensureValidEndAt parseDate iso nowUtcMs with
    | Except.error e => Except.error e
    | Except.ok endAtDuration =>
      Except.ok [⟨CandidateReason.endAt, (endAtDuration : Rat)⟩]
  | none => Except.ok []

/-- `Math.min` over a spread list (the guarded call site always passes a
non-empty list; the empty case is arbitrary). -/
def mathMin : List Rat → Rat
  | [] => 0
  | x :: xs => xs.foldl min x

/-- `computeEffectiveDuration` of stateMachine.ts. -/
def computeEffectiveDuration (parseDate : String → Option Int)
    (input : EffectiveDurationInput) : Except String EffectiveDurationComputation :=
  match assertPositive input.clipDurationSec "clipDurationSec" with
  | Except.error e => Except.error e
  | Except.ok _ =>
    match repeatsCandidates input.clipDurationSec input.stop with
    | Except.error e => Except.error e
    | Except.ok c1 =>
      match maxDurationCandidates input.stop with
      | Except.error e => Except.error e
      | Except.ok c2 =>
        match endAtCandidates parseDate input.stop input.nowUtcMs with
        | Except.error e => Except.error e
        | Except.ok c3 =>
          let candidates := c1 ++ c2 ++ c3
          if candidates.isEmpty then
            Except.error "At least one stop condition is required"
          else
            let effectiveDurationSec :=
              mathMin (candidates.map Candidate.durationSec)
            if effectiveDurationSec ≤ 0 then
              Except.error "Computed effective duration is not positive"
            else
              Except.ok ⟨effectiveDurationSec, candidates⟩

/-- Spec-side definition (from the words of the specification, for the
refinement claim about the resolver): the list of candidates of the enabled
stop rules, in source order — repeats, explicit max duration, end time.  An
enabled end time that does not parse contributes nothing here; that case is
excluded by `specEndAtOk` in the claim. -/
def specEnabledCandidates (parseDate : String → Option Int)
    (input : EffectiveDurationInput) : List Candidate :=
  (match truthyNum input.stop.maxRepeats with
   | some r => [⟨CandidateReason.repeats, input.clipDurationSec * r⟩]
   | none => []) ++
  (match truthyNum input.stop.maxDurationSec with
   | some m => [⟨CandidateReason.maxDuration, m⟩]
   | none => []) ++
  (match truthyStr input.stop.endAtIsoUtc with
   | some iso =>
     match parseDate iso with
     | some v => [⟨CandidateReason.endAt, ((Int.fdiv (v - input.nowUtcMs) 1000 : Int) : Rat)⟩]
     | none => []
   | none => [])

/-- Spec-side definition: the enabled end-time rule parses (a failed parse
is the NaN, that is non-finite, candidate of the specification). -/
def specEndAtOk (parseDate : String → Option Int) (stop : StopConditions) : Bool :=
  match truthyStr stop.endAtIsoUtc with
  | some iso => (parseDate iso).isSome
  | none => true

/-! ## Redaction (redaction.ts)

`redactSensitive` folds five global regular expressions over the input,
replacing each matched secret token by
`token.slice(0, 3) + "***" + token.slice(-3)`.  Each pattern is built from
character classes that are disjoint from the literal that must follow them,
so the greedy JavaScript match is exactly a maximal munch; the scanners
below implement that maximal munch character by character, and the driver
`replaceAll` reproduces the left-to-right, non-overlapping global replace. -/

/-- The JavaScript regex class backslash-s, restricted to the ASCII
whitespace characters that can occur in the logs the source redacts. -/
def jsSpace (c : Char) : Bool :=
  c = ' ' || c = '\t' || c = '\n' || c = '\r' || c = '\x0B' || c = '\x0C'

/-- The class of one URL segment: any character that is neither whitespace
nor a slash. -/
def hostChar (c : Char) : Bool :=
  !(jsSpace c) && c != '/'

/-- The stream-key class: letters, digits, underscore and hyphen. -/
def keyChar (c : Char) : Bool :=
  c.isAlpha || c.isDigit || c = '_' || c = '-'

/-- The Bearer-token class: the stream-key class plus the dot. -/
def bearerTokenChar (c : Char) : Bool :=
  keyChar c || c = '.'

/-- The JSON-value class: any character that is not a double quote. -/
def notQuote (c : Char) : Bool :=
  c != '"'

/-- Case-insensitive character comparison (the i flag of the patterns). -/
def charCI (a b : Char) : Bool :=
  a.toLower == b.toLower

/-- Match a literal case-insensitively; returns the matched original text
and the remainder. -/
def matchLitCI : List Char → List Char → Option (List Char × List Char)
  | [], l => some ([], l)
  | _ :: _, [] => none
  | p :: ps, c :: cs =>
    if charCI p c then
      match matchLitCI ps cs with
      | some (m, rest) => some (c :: m, rest)
      | none => none
    else none

/-- Maximal munch of a character class, requiring at least one character
(the + quantifier); returns the munched run and the remainder. -/
def takeClass1 (cls : Char → Bool) (l : List Char) : Option (List Char × List Char) :=
  let run := l.takeWhile cls
  if run.isEmpty then none else some (run, l.drop run.length)

/-- One successful match of a redaction pattern at the head of the input:
the first capture group (kept verbatim), the secret token, the optional
trailing capture group, and the remainder of the input. -/
structure RegexHit where
  lead : List Char
  token : List Char
  trail : List Char
  rest : List Char

/-- The stream-key patterns of redaction.ts: a scheme literal, a host
segment, a slash, an application segment, a slash, then the key. -/
def matchUrlKey (scheme : List Char) (l : List Char) : Option RegexHit :=
  match matchLitCI scheme l with
  | none => none
  | some (lit, r1) =>
    match takeClass1 hostChar r1 with
    | none => none
    | some (host, r2) =>
      match r2 with
      | '/' :: r3 =>
        match takeClass1 hostChar r3 with
        | none => none
        | some (seg, r4) =>
          match r4 with
          | '/' :: r5 =>
            match takeClass1 keyChar r5 with
            | none => none
            | some (key, r6) =>
              some ⟨lit ++ host ++ ['/'] ++ seg ++ ['/'], key, [], r6⟩
          | _ => none
      | _ => none

/-- The access-token and refresh-token patterns of redaction.ts: the quoted
field name, optional whitespace, a colon, optional whitespace, a quote, the
token (any run without a quote), and the closing quote as third group. -/
def matchJsonToken (name : List Char) (l : List Char) : Option RegexHit :=
  match matchLitCI name l with
  | none => none
  | some (lit, r1) =>
    let sp1 := r1.takeWhile jsSpace
    match r1.drop sp1.length with
    | ':' :: r3 =>
      let sp2 := r3.takeWhile jsSpace
      match r3.drop sp2.length with
      | '"' :: r5 =>
        match takeClass1 notQuote r5 with
        | none => none
        | some (tok, r6) =>
          match r6 with
          | '"' :: r7 => some ⟨lit ++ sp1 ++ [':'] ++ sp2 ++ ['"'], tok, ['"'], r7⟩
          | _ => none
      | _ => none
    | _ => none

/-- The Bearer pattern of redaction.ts: the literal, at least one
whitespace character, then the token. -/
def matchBearer (l : List Char) : Option RegexHit :=
  match matchLitCI ("Bearer".toList) l with
  | none => none
  | some (lit, r1) =>
    match takeClass1 jsSpace r1 with
    | none => none
    | some (sp, r2) =>
      match takeClass1 bearerTokenChar r2 with
      | none => none
      | some (tok, r3) => some ⟨lit ++ sp, tok, [], r3⟩

/-- The masked replacement of one token:
`token.slice(0, 3) + "***" + token.slice(-3)`. -/
def maskChars (token : List Char) : List Char :=
  token.take 3 ++ ['*', '*', '*'] ++ token.drop (token.length - 3)

/-- Left-to-right global replace.  Every successful `hit` consumes at least
one character (every pattern starts with a non-empty literal), so fuel equal
to the input length suffices and the fuel-out branch is never taken on the
calls `replaceAll` makes. -/
def replaceScan (hit : List Char → Option RegexHit) : Nat → List Char → List Char
  | 0, l => l
  | _ + 1, [] => []
  | fuel + 1, c :: cs =>
    match hit (c :: cs) with
    | some h => h.lead ++ maskChars h.token ++ h.trail ++ replaceScan hit fuel h.rest
    | none => c :: replaceScan hit fuel cs

/-- `output.replace(pattern, masked-replacement)` for one global pattern. -/
def replaceAll (hit : List Char → Option RegexHit) (l : List Char) : List Char :=
  replaceScan hit l.length l

/-- The ordered pattern list `TOKEN_PATTERNS` of redaction.ts. -/
def tokenPatterns : List (List Char → Option RegexHit) :=
  [matchUrlKey ("rtmp://".toList),
   matchUrlKey ("rtmps://".toList),
   matchJsonToken ("\"access_token\"".toList),
   matchJsonToken ("\"refresh_token\"".toList),
   matchBearer]

/-- `redactSensitive` of redaction.ts: fold the patterns over the value. -/
def redactSensitive (value : String) : String :=
  String.mk (tokenPatterns.foldl (fun output pat => replaceAll pat output) value.toList)

/-! ## Session repository (sessionRepository.ts)

The repository wraps a sqlite `sessions` table (primary key `id`) and an
append-only `session_events` table.  Rows are modelled as a list in
insertion order; `UPDATE ... WHERE id = ?` maps over the list, and
`SELECT ... WHERE id = ? LIMIT 1` is `List.find?`.  Generated UUIDs and
`new Date().toISOString()` timestamps are explicit arguments. -/

/-- Event severity (`SessionEventLevel` of types.ts). -/
inductive EventLevel
  | info
  | warn
  | error
deriving DecidableEq, Repr

/-- A row of the `session_events` table (the generated UUID column is
omitted; it carries no information the claims mention). -/
structure SEvent where
  sessionId : String
  ts : String
  level : EventLevel
  code : String
  message : String
deriving DecidableEq, Repr

/-- A row of the `sessions` table (the `config_json` column is omitted;
nothing reads it back). -/
structure SessionRow where
  id : String
  profileId : String
  startedAt : String
  endedAt : Option String
  state : SessionState
  broadcastId : Option String
  streamId : Option String
  errorCode : Option String
  errorMessage : Option String
deriving DecidableEq, Repr

/-- The persistent store behind `SessionRepository`. -/
structure RepoState where
  sessions : List SessionRow
  events : List SEvent
deriving DecidableEq, Repr

/-- `UPDATE sessions SET ... WHERE id = ?`: apply `f` to every row whose id
matches. -/
def updateRow (sessions : List SessionRow) (sessionId : String)
    (f : SessionRow → SessionRow) : List SessionRow :=
  sessions.map fun row => if row.id == sessionId then f row else row

/-- `SessionRepository.createSession`: insert a fresh row in state idle. -/
def RepoState.createSession (r : RepoState) (id profileId startedAt : String) :
    RepoState :=
  { r with sessions := r.sessions ++
      [{ id := id, profileId := profileId, startedAt := startedAt,
         endedAt := none, state := SessionState.idle, broadcastId := none,
         streamId := none, errorCode := none, errorMessage := none }] }

/-- `SessionRepository.updateSessionState`. -/
def RepoState.updateSessionState (r : RepoState) (sessionId : String)
    (state : SessionState) : RepoState :=
  { r with sessions := updateRow r.sessions sessionId fun row => { row with state := state } }

/-- `SessionRepository.attachYoutubeResources`. -/
def RepoState.attachYoutubeResources (r : RepoState)
    (sessionId broadcastId streamId : String) : RepoState :=
  { r with sessions := updateRow r.sessions sessionId fun row =>
      { row with broadcastId := some broadcastId, streamId := some streamId } }

/-- `SessionRepository.completeSession`. -/
def RepoState.completeSession (r : RepoState) (sessionId ts : String) : RepoState :=
  { r with sessions := updateRow r.sessions sessionId fun row =>
      { row with state := SessionState.completed, endedAt := some ts } }

/-- `SessionRepository.failSession`. -/
def RepoState.failSession (r : RepoState) (sessionId code message ts : String) :
    RepoState :=
  { r with sessions := updateRow r.sessions sessionId fun row =>
      { row with state := SessionState.failed, endedAt := some ts,
                 errorCode := some code, errorMessage := some message } }

/-- `SessionRepository.addEvent`: append one event row. -/
def RepoState.addEvent (r : RepoState) (sessionId : String) (level : EventLevel)
    (code message ts : String) : RepoState :=
  { r with events := r.events ++
      [{ sessionId := sessionId, ts := ts, level := level, code := code,
         message := message }] }

/-- `SessionSummary` of types.ts as `getSessionSummary` builds it. -/
structure SessionSummary where
  id : String
  state : SessionState
  startedAt : String
  endedAt : Option String
  broadcastId : Option String
  streamId : Option String
  errorCode : Option String
  errorMessage : Option String
deriving DecidableEq, Repr

/-- The summary `getSessionSummary` builds from one row: each nullable
column is copied only when its value is truthy (non-null and non-empty),
mirroring the if-guards of the source. -/
def summaryOfRow (row : SessionRow) : SessionSummary :=
  { id := row.id, state := row.state, startedAt := row.startedAt,
    endedAt := truthyStr row.endedAt, broadcastId := truthyStr row.broadcastId,
    streamId := truthyStr row.streamId, errorCode := truthyStr row.errorCode,
    errorMessage := truthyStr row.errorMessage }

/-- `SessionRepository.getSessionSummary`: the first matching row mapped
through `summaryOfRow`. -/
def RepoState.getSessionSummary (r : RepoState) (sessionId : String) :
    Option SessionSummary :=
  (r.sessions.find? fun row => row.id == sessionId).map summaryOfRow

/-- `SessionRepository.listSessionEvents`. -/
def RepoState.listSessionEvents (r : RepoState) (sessionId : String) : List SEvent :=
  r.events.filter fun e => e.sessionId == sessionId

/-- One call of the public repository interface, for reachability
statements about the store. -/
inductive RepoOp
  | createSession (id profileId startedAt : String)
  | updateSessionState (id : String) (state : SessionState)
  | attachYoutubeResources (id broadcastId streamId : String)
  | completeSession (id ts : String)
  | failSession (id code message ts : String)
  | addEvent (id : String) (level : EventLevel) (code message ts : String)

/-- Apply one repository call. -/
def applyRepoOp (r : RepoState) : RepoOp → RepoState
  | RepoOp.createSession id profileId startedAt => r.createSession id profileId startedAt
  | RepoOp.updateSessionState id state => r.updateSessionState id state
  | RepoOp.attachYoutubeResources id b st => r.attachYoutubeResources id b st
  | RepoOp.completeSession id ts => r.completeSession id ts
  | RepoOp.failSession id code message ts => r.failSession id code message ts
  | RepoOp.addEvent id level code message ts => r.addEvent id level code message ts

/-- The empty store. -/
def emptyRepo : RepoState := ⟨[], []⟩

/-- Run a sequence of repository calls from the empty store. -/
def runRepo (ops : List RepoOp) : RepoState :=
  ops.foldl applyRepoOp emptyRepo

/-- A `failSession` call with non-empty code and message; every other call
trivially qualifies. -/
def goodFailArgs : RepoOp → Prop
  | RepoOp.failSession _ code message _ => code ≠ "" ∧ message ≠ ""
  | _ => True

/-! ## Session orchestrator (sessionService.ts)

The `SessionService` owns an in-memory map of `ActiveSession` handles, the
repository, and a temp directory.  The model keeps the map as a list in
insertion order (keys are unique in every reachable state; the lemmas that
need uniqueness assume it).  The externally visible side effects of the
collaborators — cancelling timers, signalling the ffmpeg child, removing
the temp clip, and the remote transition to complete — are appended to an
effect trace; the set of files on disk is a list of paths.  The wall clock
is frozen to the `now` field (every `new Date().toISOString()` of one
handler call produces close timestamps; their exact values decide
nothing). -/

/-- The in-memory `ActiveSession` record of sessionService.ts.  The fields
`hasFfmpegChild` and `childKilled` model the presence of the child-process
handle and its `killed` property; `hasStopTimer` and `hasPollTimer` model
the presence of the two timer handles. -/
structure ActiveSession where
  id : String
  profileId : String
  clipPath : String
  broadcastId : Option String
  streamId : Option String
  lastObservedStreamState : Option StreamLifecycleState
  hasFfmpegChild : Bool
  childKilled : Bool
  hasStopTimer : Bool
  hasPollTimer : Bool
  stopping : Bool
  finalized : Bool
deriving DecidableEq, Repr

/-- An externally visible side effect of the orchestrator. -/
inductive Effect
  | clearStopTimer (sessionId : String)
  | clearPollTimer (sessionId : String)
  | killSignal (sessionId signal : String)
  | removeFile (path : String)
  | remoteComplete (profileId broadcastId : String)
deriving DecidableEq, Repr

/-- The full observable state of the orchestrator and its environment. -/
structure ServiceState where
  repo : RepoState
  activeSessions : List ActiveSession
  files : List String
  effects : List Effect
  tempDir : String
  now : String
deriving DecidableEq, Repr

/-- `this.activeSessions.get(sessionId)`. -/
def lookupActive (s : ServiceState) (sessionId : String) : Option ActiveSession :=
  s.activeSessions.find? fun a => a.id == sessionId

/-- Write back a mutation of an `ActiveSession` object (reference updates
in the source are modelled by replacing the entry with the same id). -/
def setActive (s : ServiceState) (a : ActiveSession) : ServiceState :=
  { s with activeSessions := s.activeSessions.map fun b => if b.id == a.id then a else b }

/-- `this.activeSessions.set(sessionId, active)` for a fresh id. -/
def insertActive (s : ServiceState) (a : ActiveSession) : ServiceState :=
  { s with activeSessions := s.activeSessions ++ [a] }

/-- `this.activeSessions.delete(id)`. -/
def deleteActive (s : ServiceState) (sessionId : String) : ServiceState :=
  { s with activeSessions := s.activeSessions.filter fun a => a.id != sessionId }

/-- `SessionService.record`: persist one event (the EventEmitter delivery
to subscribers stores nothing and is not modelled). -/
def record (s : ServiceState) (sessionId : String) (level : EventLevel)
    (code message : String) : ServiceState :=
  { s with repo := s.repo.addEvent sessionId level code message s.now }

/-- `SessionService.transition`: look up the summary; a missing session is
a no-op; a target different from the current state that the table rejects
records a warning and changes nothing; otherwise update the state and
record the change. -/
def transition (s : ServiceState) (sessionId : String) (targetState : SessionState) :
    ServiceState :=
  match s.repo.getSessionSummary sessionId with
  | none => s
  | some current =>
    if current.state ≠ targetState ∧ canTransitionSession current.state targetState = false then
      record s sessionId EventLevel.warn "INVALID_TRANSITION"
        ("Ignoring invalid transition " ++ current.state.toStr ++ " -> " ++ targetState.toStr)
    else
      let s1 := { s with repo := s.repo.updateSessionState sessionId targetState }
      record s1 sessionId EventLevel.info "STATE_CHANGE"
        ("Session state changed to " ++ targetState.toStr)

/-- `SessionService.cleanupActive`: cancel both timers, remove the temp
clip when it exists, and drop the registry entry. -/
def cleanupActive (s : ServiceState) (active : ActiveSession) : ServiceState :=
  let s1 := if active.hasStopTimer
            then { s with effects := s.effects ++ [Effect.clearStopTimer active.id] }
            else s
  let s2 := if active.hasPollTimer
            then { s1 with effects := s1.effects ++ [Effect.clearPollTimer active.id] }
            else s1
  let s3 := if active.clipPath ∈ s2.files
            then { s2 with files := s2.files.filter (fun p => p != active.clipPath),
                           effects := s2.effects ++ [Effect.removeFile active.clipPath] }
            else s2
  deleteActive s3 active.id

/-- `SessionService.complete`: guard on a present, not yet finalized
entry; set `finalized`, clean up, mark the summary completed, record. -/
def complete (s : ServiceState) (sessionId : String) : ServiceState :=
  match lookupActive s sessionId with
  | none => s
  | some active =>
    if active.finalized then s
    else
      let active1 := { active with finalized := true }
      let s1 := setActive s active1
      let s2 := cleanupActive s1 active1
      let s3 := { s2 with repo := s2.repo.completeSession sessionId s2.now }
      record s3 sessionId EventLevel.info "SESSION_COMPLETED" "Session completed successfully"

/-- `SessionService.fail`: finalize and clean up when an entry is present
and not yet finalized, then persist the failure and record it. -/
def fail (s : ServiceState) (sessionId code message : String) : ServiceState :=
  let s1 :=
    match lookupActive s sessionId with
    | some active =>
      if active.finalized then s
      else
        let active1 := { active with finalized := true }
        cleanupActive (setActive s active1) active1
    | none => s
  let s2 := { s1 with repo := s1.repo.failSession sessionId code message s1.now }
  record s2 sessionId EventLevel.error code message

/-- The reason argument of `stop`. -/
inductive StopReason
  | manual
  | timer
  | process
deriving DecidableEq, Repr

/-- The string name of a stop reason. -/
def StopReason.toStr : StopReason → String
  | .manual => "manual"
  | .timer => "timer"
  | .process => "process"

/-- The first half of `SessionService.stop`, up to the await on the child
shutdown (source lines 175-199): mark `stopping`, transition, record,
cancel both timers, and signal the child.  `kill("SIGINT")` sets the
`killed` property of the child, so the escalation branch of the grace race
re-checks `killed`, finds it set, and never sends SIGKILL; the model
reflects that re-check and the race needs no further parameter. -/
def stopBegin (s : ServiceState) (active : ActiveSession) (reason : StopReason) :
    ServiceState :=
  let active1 := { active with stopping := true }
  let s1 := setActive s active1
  let s2 := transition s1 active1.id SessionState.stopping
  let s3 := record s2 active1.id EventLevel.info "SESSION_STOP"
    ("Stop requested (" ++ reason.toStr ++ ")")
  let s4 := if active1.hasStopTimer
            then { s3 with effects := s3.effects ++ [Effect.clearStopTimer active1.id] }
            else s3
  let s5 := if active1.hasPollTimer
            then { s4 with effects := s4.effects ++ [Effect.clearPollTimer active1.id] }
            else s4
  if active1.hasFfmpegChild && !active1.childKilled then
    let active2 := { active1 with childKilled := true }
    let s6 := { s5 with effects := s5.effects ++ [Effect.killSignal active1.id "SIGINT"] }
    setActive s6 active2
  else s5

/-- The second half of `SessionService.stop` (source lines 201-215): when
remote identifiers exist, attempt the remote transition to complete —
`remoteFailure = none` models success, `some msg` a caught error recorded
as a warning — then finalize through `complete`. -/
def stopFinish (s : ServiceState) (active : ActiveSession)
    (remoteFailure : Option String) : ServiceState :=
  let s1 :=
    match active.broadcastId with
    | some broadcastId =>
      let s2 := { s with effects := s.effects ++
        [Effect.remoteComplete active.profileId broadcastId] }
      match remoteFailure with
      | none => s2
      | some msg => record s2 active.id EventLevel.warn "YOUTUBE_COMPLETE_WARN" msg
    | none => s
  complete s1 active.id

/-- `SessionService.stop`: unknown session is false; an entry already
stopping is true at once; otherwise run both halves. -/
def stop (s : ServiceState) (sessionId : String) (reason : StopReason)
    (remoteFailure : Option String) : Bool × ServiceState :=
  match lookupActive s sessionId with
  | none => (false, s)
  | some active =>
    if active.stopping then (true, s)
    else (true, stopFinish (stopBegin s active reason) { active with stopping := true } remoteFailure)

/-- `String(code)` for the nullable exit code. -/
def showIntOpt : Option Int → String
  | none => "null"
  | some i => toString i

/-- `String(signal)` for the nullable signal name. -/
def showStrOpt : Option String → String
  | none => "null"
  | some s => s

/-- `SessionService.handleProcessExit`: ignore when the entry is gone,
finalized, or already stopping; a zero exit code goes through the regular
stop path with reason process; anything else records and marks the session
failed. -/
def handleProcessExit (s : ServiceState) (sessionId : String) (code : Option Int)
    (signal : Option String) (remoteFailure : Option String) : ServiceState :=
  match lookupActive s sessionId with
  | none => s
  | some active =>
    if active.finalized then s
    else if active.stopping then s
    else if code = some 0 then
      let s1 := record s sessionId EventLevel.info "FFMPEG_EXIT"
        "ffmpeg exited naturally; finalizing session"
      (stop s1 sessionId StopReason.process remoteFailure).2
    else
      let message := "ffmpeg exited unexpectedly (code=" ++ showIntOpt code ++
        ", signal=" ++ showStrOpt signal ++ ")"
      let s1 := record s sessionId EventLevel.error "FFMPEG_EXIT_ERROR" message
      fail s1 sessionId "FFMPEG_EXIT_ERROR" message

/-- The resolved value of `progressBroadcastLifecycle` that a poll tick
hands to its then-callback. -/
structure LifecycleProgress where
  streamState : StreamLifecycleState
  attemptedTesting : Bool
  attemptedLive : Bool
deriving DecidableEq, Repr

/-- The then-callback of the poll timer in `SessionService.start` (source
lines 118-143): re-read the entry; bail out when it is gone, finalized or
stopping; note a changed ingest state; opportunistically advance the
session state machine. -/
def pollResult (s : ServiceState) (sessionId : String)
    (lifecycle : LifecycleProgress) : ServiceState :=
  match lookupActive s sessionId with
  | none => s
  | some current =>
    if current.finalized ∨ current.stopping then s
    else
      let s1 :=
        if current.lastObservedStreamState ≠ some lifecycle.streamState then
          let s2 := setActive s { current with lastObservedStreamState := some lifecycle.streamState }
          record s2 sessionId EventLevel.info "YOUTUBE_STREAM_STATE"
            ("YouTube ingest state is " ++ lifecycle.streamState.toStr)
        else s
      if lifecycle.streamState = StreamLifecycleState.live then
        transition (transition s1 sessionId SessionState.testing) sessionId SessionState.live
      else if lifecycle.attemptedTesting then
        transition s1 sessionId SessionState.testing
      else s1

/-- The catch-callback of the poll timer (source lines 144-146): record a
warning.  This branch has no finalized guard in the source; it only ever
appends a log event. -/
def pollError (s : ServiceState) (sessionId message : String) : ServiceState :=
  record s sessionId EventLevel.warn "YOUTUBE_POLL_WARN" message

/-! ## Session configuration and its zod schema (validators.ts, types.ts)

`z.string().datetime()` is a library check on the ISO format; it is
abstracted as a predicate `isDatetime`. -/

/-- `TrimWindow` of types.ts. -/
structure TrimWindow where
  startSec : Rat
  endSec : Rat
deriving DecidableEq, Repr

/-- `BroadcastMode` of types.ts. -/
inductive BroadcastMode
  | createNew
  | reuseExisting
deriving DecidableEq, Repr

/-- The string name of a broadcast mode. -/
def BroadcastMode.toStr : BroadcastMode → String
  | .createNew => "create-new"
  | .reuseExisting => "reuse-existing"

/-- `NewBroadcastInput` of types.ts (the constant `latencyPreference`
literal carries no data and is omitted). -/
structure NewBroadcastInput where
  title : String
  description : Option String
  privacyStatus : String
  scheduledStartIsoUtc : String
deriving DecidableEq, Repr

/-- `SessionConfig` of types.ts. -/
structure SessionConfig where
  profileId : String
  videoPath : String
  trim : TrimWindow
  stop : StopConditions
  broadcastMode : BroadcastMode
  existingBroadcastId : Option String
  newBroadcast : Option NewBroadcastInput
deriving DecidableEq, Repr

/-- `trimWindowSchema`: startSec at least zero, endSec positive, and the
refinement endSec strictly greater than startSec. -/
def validTrimWindow (t : TrimWindow) : Bool :=
  decide (0 ≤ t.startSec) && decide (0 < t.endSec) && decide (t.startSec < t.endSec)

/-- A `Rat` is a JavaScript integer when its denominator is one. -/
def isIntRat (r : Rat) : Bool :=
  r.den == 1

/-- `stopConditionsSchema`: each optional number a positive integer, the
optional end time a datetime string, and at least one condition truthy. -/
def validStopConditions (isDatetime : String → Bool) (st : StopConditions) : Bool :=
  (match st.maxRepeats with
   | some r => isIntRat r && decide (0 < r)
   | none => true) &&
  (match st.maxDurationSec with
   | some m => isIntRat m && decide (0 < m)
   | none => true) &&
  (match st.endAtIsoUtc with
   | some iso => isDatetime iso
   | none => true) &&
  ((truthyNum st.maxRepeats).isSome || (truthyNum st.maxDurationSec).isSome ||
    (truthyStr st.endAtIsoUtc).isSome)

/-- `newBroadcastSchema`. -/
def validNewBroadcast (isDatetime : String → Bool) (b : NewBroadcastInput) : Bool :=
  decide (3 ≤ b.title.length) && decide (b.title.length ≤ 120) &&
  (match b.description with
   | some d => decide (d.length ≤ 5000)
   | none => true) &&
  (b.privacyStatus == "private" || b.privacyStatus == "unlisted" ||
    b.privacyStatus == "public") &&
  isDatetime b.scheduledStartIsoUtc

/-- `sessionConfigSchema` including its superRefine: create-new needs a
new-broadcast payload, reuse-existing needs a truthy broadcast id. -/
def validSessionConfig (isDatetime : String → Bool) (c : SessionConfig) : Bool :=
  decide (1 ≤ c.profileId.length) && decide (1 ≤ c.videoPath.length) &&
  validTrimWindow c.trim &&
  validStopConditions isDatetime c.stop &&
  (match c.newBroadcast with
   | some b => validNewBroadcast isDatetime b
   | none => true) &&
  (match c.broadcastMode with
   | BroadcastMode.createNew => c.newBroadcast.isSome
   | BroadcastMode.reuseExisting => (truthyStr c.existingBroadcastId).isSome)

/-- `sessionConfigSchema.parse`: the identity on valid configurations, a
thrown error otherwise (zod aggregates issue texts; only the fact of the
throw matters, it happens before anything is persisted). -/
def sessionConfigParse (isDatetime : String → Bool) (c : SessionConfig) :
    Except String SessionConfig :=
  if validSessionConfig isDatetime c then Except.ok c
  else Except.error "Invalid session configuration"

/-! ## SessionService.start -/

/-- `YoutubeProvisionResult` of types.ts. -/
structure ProvisionResult where
  broadcastId : String
  streamId : String
  ingestionAddress : String
  streamName : String
deriving DecidableEq, Repr

/-- `StartSessionResult` of types.ts (the effective duration is the
`Math.floor` of the computed rational). -/
structure StartSessionResult where
  sessionId : String
  effectiveDurationSec : Int
  stopAtIsoUtc : String
deriving DecidableEq, Repr

/-- The environment of one `start` call: the generated UUID, the wall
clock, the outcomes of the awaited collaborator calls, and the library
functions for dates. -/
structure StartEnv where
  sessionId : String
  startedAt : String
  nowUtcMs : Int
  trimResult : Except String Unit
  probeResult : Except String Rat
  provisionResult : Except String ProvisionResult
  startLoopResult : Except String Unit
  parseDate : String → Option Int
  isDatetime : String → Bool
  isoOfMs : Int → String

/-- A file appearing on disk (the temp clip a successful `trimClip`
writes). -/
def addFile (s : ServiceState) (path : String) : ServiceState :=
  { s with files := s.files ++ [path] }

/-- The catch block of `SessionService.start` (source lines 157-162):
persist the failure, record it, and re-throw. -/
def startCatch (s : ServiceState) (sessionId message : String) : ServiceState :=
  let s1 := { s with repo := s.repo.failSession sessionId "SESSION_START_FAILED" message s.now }
  record s1 sessionId EventLevel.error "SESSION_START_FAILED" message

/-- The row mutation `failSession` applies on the start failure path. -/
def failedRowOf (row : SessionRow) (msg now : String) : SessionRow :=
  { row with state := SessionState.failed, endedAt := some now,
             errorCode := some "SESSION_START_FAILED", errorMessage := some msg }

/-- The temp clip path `path.join(this.tempDir, sessionId + "-trim.mp4")`. -/
def clipPathOf (tempDir sessionId : String) : String :=
  tempDir ++ "/" ++ sessionId ++ "-trim.mp4"

/-- `SessionService.start`.  Parsing failures throw before any persistence;
afterwards each awaited step either succeeds (its visible consequences are
applied) or throws into the catch block.  A successful trim writes the temp
clip; a successful subprocess start wires the log and exit callbacks
(modelled separately) and registers the `ActiveSession` with both timers
armed. -/
def start (env : StartEnv) (s : ServiceState) (configInput : SessionConfig) :
    ServiceState × Except String StartSessionResult :=
  match sessionConfigParse env.isDatetime configInput with
  | Except.error e => (s, Except.error e)
  | Except.ok parsed =>
    let sessionId := env.sessionId
    let s1 := { s with repo := s.repo.createSession sessionId parsed.profileId env.startedAt }
    let s2 := transition s1 sessionId SessionState.preparingClip
    let s3 := record s2 sessionId EventLevel.info "SESSION_START" "Session initialization started"
    let clipPath := clipPathOf s.tempDir sessionId
    match env.trimResult with
    | Except.error e => (startCatch s3 sessionId e, Except.error e)
    | Except.ok _ =>
      let s4 := addFile s3 clipPath
      match env.probeResult with
      | Except.error e => (startCatch s4 sessionId e, Except.error e)
      | Except.ok clipDurationSec =>
        match computeEffectiveDuration env.parseDate
            ⟨clipDurationSec, parsed.stop, env.nowUtcMs⟩ with
        | Except.error e => (startCatch s4 sessionId e, Except.error e)
        | Except.ok durationComputation =>
          let effectiveDurationSec : Int := ⌊durationComputation.effectiveDurationSec⌋
          let stopAtIsoUtc := env.isoOfMs (env.nowUtcMs + effectiveDurationSec * 1000)
          let s5 := transition s4 sessionId SessionState.provisioningYoutube
          let s6 := record s5 sessionId EventLevel.info "YOUTUBE_PROVISION_START"
            ("Provisioning broadcast for mode " ++ parsed.broadcastMode.toStr)
          match env.provisionResult with
          | Except.error e => (startCatch s6 sessionId e, Except.error e)
          | Except.ok provisioned =>
            let s7 := { s6 with repo := s6.repo.attachYoutubeResources sessionId provisioned.broadcastId provisioned.streamId }
            let _ingestUrl := provisioned.ingestionAddress ++ "/" ++ provisioned.streamName
            let s8 := transition s7 sessionId SessionState.startingFfmpeg
            let s9 := record s8 sessionId EventLevel.info "FFMPEG_START" "Starting stream process"
            match env.startLoopResult with
            | Except.error e => (startCatch s9 sessionId e, Except.error e)
            | Except.ok _ =>
              let active : ActiveSession :=
                { id := sessionId, profileId := parsed.profileId, clipPath := clipPath,
                  broadcastId := some provisioned.broadcastId,
                  streamId := some provisioned.streamId,
                  lastObservedStreamState := none,
                  hasFfmpegChild := true, childKilled := false,
                  hasStopTimer := true, hasPollTimer := true,
                  stopping := false, finalized := false }
              let s10 := insertActive s9 active
              let s11 := record s10 sessionId EventLevel.info "SESSION_RUNNING"
                ("Session live timer active until " ++ stopAtIsoUtc)
              (s11, Except.ok ⟨sessionId, effectiveDurationSec, stopAtIsoUtc⟩)

/-! ## The ffmpeg log wiring (ffmpegService.ts, sessionService.ts)

`FfmpegService.startLoopStream` passes `redactSensitive(chunk.toString())`
to the `onLog` callback for every stdout and stderr chunk; the callback in
`SessionService.start` trims the line and records it when non-empty. -/

/-- The stdout/stderr data handler of `startLoopStream`
(ffmpegService.ts lines 180-186): what reaches `onLog`. -/
def ffmpegLogLine (rawChunk : String) : String :=
  redactSensitive rawChunk

/-- `String.prototype.trim`: strip leading and trailing whitespace. -/
def jsTrim (s : String) : String :=
  String.mk (((s.data.dropWhile jsSpace).reverse.dropWhile jsSpace).reverse)

/-- The `onLog` callback built in `SessionService.start` (source lines
90-94). -/
def onLogHandler (s : ServiceState) (sessionId line : String) : ServiceState :=
  if jsTrim line ≠ "" then record s sessionId EventLevel.info "FFMPEG_LOG" (jsTrim line)
  else s

/-- One raw subprocess output chunk as it is recorded: redacted by the
process controller, then trimmed and stored by the orchestrator. -/
def recordFfmpegChunk (s : ServiceState) (sessionId rawChunk : String) : ServiceState :=
  onLogHandler s sessionId (ffmpegLogLine rawChunk)

/-! ## Effect counting -/

/-- Is an effect the remote transition to complete? -/
def isRemoteCompleteEff : Effect → Bool
  | Effect.remoteComplete _ _ => true
  | _ => false

/-- Is an effect the removal of the given file? -/
def isRemoveFileEff (path : String) : Effect → Bool
  | Effect.removeFile q => q == path
  | _ => false

/-- How many remote complete transitions a trace attempts. -/
def countRemoteComplete (effects : List Effect) : Nat :=
  effects.countP isRemoteCompleteEff

/-- How many times a trace removes the given file. -/
def countRemoveFile (path : String) (effects : List Effect) : Nat :=
  effects.countP (isRemoveFileEff path)

/-! ## Concrete instances used by the closed corollaries and
counterexamples -/

/-- A typical in-memory handle. -/
def wActive (id : String) (stopping finalized : Bool) : ActiveSession :=
  { id := id, profileId := "p1", clipPath := "/tmp/" ++ id ++ "-trim.mp4",
    broadcastId := some "b1", streamId := some "st1",
    lastObservedStreamState := none, hasFfmpegChild := true, childKilled := false,
    hasStopTimer := true, hasPollTimer := true, stopping := stopping,
    finalized := finalized }

/-- A typical persisted row. -/
def wRow (id : String) (state : SessionState) : SessionRow :=
  { id := id, profileId := "p1", startedAt := "t0", endedAt := none, state := state,
    broadcastId := some "b1", streamId := some "st1", errorCode := none,
    errorMessage := none }

/-- A state holding one finalized registry entry for sX (the configuration
the instant after finalization would normally have deleted it) and no entry
at all for sY. -/
def c1State : ServiceState :=
  { repo := ⟨[wRow "sX" SessionState.live], []⟩,
    activeSessions := [wActive "sX" false true],
    files := ["/tmp/sX-trim.mp4"], effects := [], tempDir := "/tmp", now := "t1" }

/-- A state holding one live, running session s1. -/
def c2State : ServiceState :=
  { repo := ⟨[wRow "s1" SessionState.live], []⟩,
    activeSessions := [wActive "s1" false false],
    files := ["/tmp/s1-trim.mp4"], effects := [], tempDir := "/tmp", now := "t1" }

/-- A valid reuse-existing configuration. -/
def c4Cfg : SessionConfig :=
  { profileId := "p1", videoPath := "/videos/clip.mp4", trim := ⟨0, 5⟩,
    stop := { maxDurationSec := some 50 }, broadcastMode := BroadcastMode.reuseExisting,
    existingBroadcastId := some "b1", newBroadcast := none }

/-- An environment whose provisioning call fails after a successful trim. -/
def c4Env : StartEnv :=
  { sessionId := "s1", startedAt := "t0", nowUtcMs := 0,
    trimResult := Except.ok (), probeResult := Except.ok 10,
    provisionResult := Except.error "provision exploded",
    startLoopResult := Except.ok (), parseDate := fun _ => none,
    isDatetime := fun _ => true, isoOfMs := fun _ => "iso" }

/-- An empty service state. -/
def c4State : ServiceState :=
  { repo := ⟨[], []⟩, activeSessions := [], files := [], effects := [],
    tempDir := "/tmp", now := "t1" }

/-- A date parser for the resolver example: every string is 45000 ms after
the epoch. -/
def c5Parse : String → Option Int := fun _ => some 45000

/-- The worked example of the specification: a 10 s clip, 8 repeats, a 50 s
cap, and an end time 45 s from now. -/
def c5Input : EffectiveDurationInput :=
  { clipDurationSec := 10,
    stop := { maxRepeats := some 8, maxDurationSec := some 50,
              endAtIsoUtc := some "2099-01-01T00:00:45.000Z" },
    nowUtcMs := 0 }

/-- A state holding only a persisted row for s1 in state testing. -/
def c7State : ServiceState :=
  { repo := ⟨[wRow "s1" SessionState.testing], []⟩, activeSessions := [],
    files := [], effects := [], tempDir := "/tmp", now := "t0" }

/-- The summary getSessionSummary returns for the single row of c7State. -/
def c7Summary : SessionSummary :=
  { id := "s1", state := SessionState.testing, startedAt := "t0", endedAt := none,
    broadcastId := some "b1", streamId := some "st1", errorCode := none,
    errorMessage := none }

/-- A repository history whose failure call carries an empty message. -/
def c9OpsBad : List RepoOp :=
  [RepoOp.createSession "s1" "p1" "t0", RepoOp.failSession "s1" "X" "" "t1"]

/-- A repository history whose failure call carries real code and message. -/
def c9OpsGood : List RepoOp :=
  [RepoOp.createSession "s1" "p1" "t0", RepoOp.failSession "s1" "X" "boom" "t1"]

/-! ## Frame lemmas -/

theorem record_activeSessions (s : ServiceState) (i : String) (l : EventLevel)
    (c m : String) : (record s i l c m).activeSessions = s.activeSessions := rfl

theorem record_files (s : ServiceState) (i : String) (l : EventLevel) (c m : String) :
    (record s i l c m).files = s.files := rfl

theorem record_effects (s : ServiceState) (i : String) (l : EventLevel) (c m : String) :
    (record s i l c m).effects = s.effects := rfl

theorem record_now (s : ServiceState) (i : String) (l : EventLevel) (c m : String) :
    (record s i l c m).now = s.now := rfl

theorem record_sessions (s : ServiceState) (i : String) (l : EventLevel) (c m : String) :
    (record s i l c m).repo.sessions = s.repo.sessions := rfl

theorem record_events (s : ServiceState) (i : String) (l : EventLevel) (c m : String) :
    (record s i l c m).repo.events =
      s.repo.events ++ [{ sessionId := i, ts := s.now, level := l, code := c, message := m }] := rfl

theorem setActive_repo (s : ServiceState) (a : ActiveSession) :
    (setActive s a).repo = s.repo := rfl

theorem setActive_files (s : ServiceState) (a : ActiveSession) :
    (setActive s a).files = s.files := rfl

theorem setActive_effects (s : ServiceState) (a : ActiveSession) :
    (setActive s a).effects = s.effects := rfl

theorem setActive_now (s : ServiceState) (a : ActiveSession) :
    (setActive s a).now = s.now := rfl

theorem transition_activeSessions (s : ServiceState) (i : String) (t : SessionState) :
    (transition s i t).activeSessions = s.activeSessions := by
  unfold transition
  split
  · rfl
  · split <;> simp [record]

theorem transition_files (s : ServiceState) (i : String) (t : SessionState) :
    (transition s i t).files = s.files := by
  unfold transition
  split
  · rfl
  · split <;> simp [record]

theorem transition_effects (s : ServiceState) (i : String) (t : SessionState) :
    (transition s i t).effects = s.effects := by
  unfold transition
  split
  · rfl
  · split <;> simp [record]

theorem transition_now (s : ServiceState) (i : String) (t : SessionState) :
    (transition s i t).now = s.now := by
  unfold transition
  split
  · rfl
  · split <;> simp [record]

/-! ## List helpers -/

theorem find?_filter_ne_active (l : List ActiveSession) (i : String) :
    (l.filter fun a => a.id != i).find? (fun a => a.id == i) = none := by
  induction l with
  | nil => rfl
  | cons h t ih =>
    by_cases hh : h.id = i
    · simp [List.filter_cons, hh, ih]
    · simp [List.filter_cons, hh, List.find?_cons, ih]

theorem updateRow_find? (l : List SessionRow) (i j : String) (f : SessionRow → SessionRow)
    (hf : ∀ r, (f r).id = r.id) :
    (updateRow l i f).find? (fun r => r.id == j) =
      (l.find? (fun r => r.id == j)).map (fun r => if r.id == i then f r else r) := by
  unfold updateRow
  rw [List.find?_map]
  have hp : ((fun r : SessionRow => r.id == j) ∘
      (fun row : SessionRow => if row.id == i then f row else row)) =
      (fun r : SessionRow => r.id == j) := by
    funext r
    by_cases h : r.id = i <;> simp [Function.comp, h, hf r]
  rw [hp]

theorem lookup_setActive_found (s : ServiceState) (a b : ActiveSession) (i : String)
    (hlk : lookupActive s i = some b) (hid : a.id = i) :
    lookupActive (setActive s a) i = some a := by
  have hbid : b.id = i := by
    have := List.find?_some hlk
    simpa using this
  unfold lookupActive setActive at *
  rw [show (fun x : ActiveSession => if x.id == a.id then a else x) =
        (fun x : ActiveSession => if x.id == i then a else x) by rw [hid]]
  rw [List.find?_map]
  have hp : ((fun x : ActiveSession => x.id == i) ∘
      (fun x : ActiveSession => if x.id == i then a else x)) =
      (fun x : ActiveSession => x.id == i) := by
    funext x
    by_cases h : x.id = i <;> simp [Function.comp, h, hid]
  rw [hp, hlk]
  simp [hbid]

theorem lookup_deleteActive (s : ServiceState) (i : String) :
    lookupActive (deleteActive s i) i = none := by
  unfold lookupActive deleteActive
  exact find?_filter_ne_active s.activeSessions i

/-! ## Cleanup, complete and fail characterizations -/

theorem cleanup_activeSessions (s : ServiceState) (a : ActiveSession) :
    (cleanupActive s a).activeSessions = s.activeSessions.filter fun b => b.id != a.id := by
  by_cases h1 : a.hasStopTimer <;> by_cases h2 : a.hasPollTimer <;>
    by_cases h3 : a.clipPath ∈ s.files <;>
      simp [cleanupActive, deleteActive, h1, h2, h3]

theorem cleanup_repo (s : ServiceState) (a : ActiveSession) :
    (cleanupActive s a).repo = s.repo := by
  by_cases h1 : a.hasStopTimer <;> by_cases h2 : a.hasPollTimer <;>
    by_cases h3 : a.clipPath ∈ s.files <;>
      simp [cleanupActive, deleteActive, h1, h2, h3]

theorem cleanup_now (s : ServiceState) (a : ActiveSession) :
    (cleanupActive s a).now = s.now := by
  by_cases h1 : a.hasStopTimer <;> by_cases h2 : a.hasPollTimer <;>
    by_cases h3 : a.clipPath ∈ s.files <;>
      simp [cleanupActive, deleteActive, h1, h2, h3]

theorem filter_ne_of_not_mem (l : List String) (x : String) (h : x ∉ l) :
    l.filter (fun p => p != x) = l := by
  refine List.filter_eq_self.mpr fun p hp => ?_
  have : p ≠ x := fun he => h (he ▸ hp)
  simpa using this

theorem cleanup_files (s : ServiceState) (a : ActiveSession) :
    (cleanupActive s a).files = s.files.filter fun p => p != a.clipPath := by
  by_cases h1 : a.hasStopTimer <;> by_cases h2 : a.hasPollTimer <;>
    by_cases h3 : a.clipPath ∈ s.files <;>
      simp [cleanupActive, deleteActive, h1, h2, h3, filter_ne_of_not_mem s.files a.clipPath]

theorem cleanup_lookup_none (s : ServiceState) (a : ActiveSession) :
    lookupActive (cleanupActive s a) a.id = none := by
  unfold lookupActive
  rw [cleanup_activeSessions]
  exact find?_filter_ne_active s.activeSessions a.id

theorem cleanup_clip_not_mem (s : ServiceState) (a : ActiveSession) :
    a.clipPath ∉ (cleanupActive s a).files := by
  rw [cleanup_files]
  intro hmem
  have := (List.mem_filter.mp hmem).2
  simp at this

theorem cleanup_countRemove (s : ServiceState) (a : ActiveSession) :
    countRemoveFile a.clipPath (cleanupActive s a).effects =
      countRemoveFile a.clipPath s.effects +
        (if a.clipPath ∈ s.files then 1 else 0) := by
  by_cases h1 : a.hasStopTimer <;> by_cases h2 : a.hasPollTimer <;>
    by_cases h3 : a.clipPath ∈ s.files <;>
      simp [cleanupActive, deleteActive, countRemoveFile, h1, h2, h3,
        List.countP_append, List.countP_cons, isRemoveFileEff]

theorem cleanup_countRemote (s : ServiceState) (a : ActiveSession) :
    countRemoteComplete (cleanupActive s a).effects = countRemoteComplete s.effects := by
  by_cases h1 : a.hasStopTimer <;> by_cases h2 : a.hasPollTimer <;>
    by_cases h3 : a.clipPath ∈ s.files <;>
      simp [cleanupActive, deleteActive, countRemoteComplete, h1, h2, h3,
        List.countP_append, List.countP_cons, isRemoteCompleteEff]

theorem transition_find?_isSome (s : ServiceState) (i : String) (t : SessionState)
    (j : String) :
    ((transition s i t).repo.sessions.find? (fun r => r.id == j)).isSome =
      (s.repo.sessions.find? (fun r => r.id == j)).isSome := by
  unfold transition
  split
  · rfl
  · split
    · simp [record, RepoState.addEvent]
    · simp only [record, RepoState.addEvent, RepoState.updateSessionState]
      rw [updateRow_find? s.repo.sessions i j (fun row => { row with state := t }) (fun r => rfl)]
      simp

theorem complete_eq (s : ServiceState) (i : String) (a : ActiveSession)
    (hlk : lookupActive s i = some a) (hfin : a.finalized = false) :
    complete s i =
      record { cleanupActive (setActive s { a with finalized := true })
                 { a with finalized := true } with
               repo := (cleanupActive (setActive s { a with finalized := true })
                 { a with finalized := true }).repo.completeSession i
                   (cleanupActive (setActive s { a with finalized := true })
                     { a with finalized := true }).now }
        i EventLevel.info "SESSION_COMPLETED" "Session completed successfully" := by
  unfold complete
  rw [hlk]
  simp [hfin]

theorem fail_eq (s : ServiceState) (i : String) (a : ActiveSession) (code message : String)
    (hlk : lookupActive s i = some a) (hfin : a.finalized = false) :
    fail s i code message =
      record { cleanupActive (setActive s { a with finalized := true })
                 { a with finalized := true } with
               repo := (cleanupActive (setActive s { a with finalized := true })
                 { a with finalized := true }).repo.failSession i code message
                   (cleanupActive (setActive s { a with finalized := true })
                     { a with finalized := true }).now }
        i EventLevel.error code message := by
  unfold fail
  rw [hlk]
  simp [hfin]

/-! ## Component facts for complete and fail -/

theorem complete_facts (s : ServiceState) (i : String) (a : ActiveSession)
    (hlk : lookupActive s i = some a) (hfin : a.finalized = false) :
    lookupActive (complete s i) i = none ∧
    a.clipPath ∉ (complete s i).files ∧
    countRemoveFile a.clipPath (complete s i).effects =
      countRemoveFile a.clipPath s.effects + (if a.clipPath ∈ s.files then 1 else 0) ∧
    countRemoteComplete (complete s i).effects = countRemoteComplete s.effects ∧
    (∀ row, s.repo.sessions.find? (fun r => r.id == i) = some row →
      (complete s i).repo.sessions.find? (fun r => r.id == i) =
        some { row with state := SessionState.completed, endedAt := some s.now }) := by
  have hid : a.id = i := by simpa using List.find?_some hlk
  have heq := complete_eq s i a hlk hfin
  have ha1id : ({ a with finalized := true } : ActiveSession).id = i := hid
  have hAct : (complete s i).activeSessions =
      (cleanupActive (setActive s { a with finalized := true })
        { a with finalized := true }).activeSessions :=
    (congrArg ServiceState.activeSessions heq).trans rfl
  have hFiles : (complete s i).files =
      (cleanupActive (setActive s { a with finalized := true })
        { a with finalized := true }).files :=
    (congrArg ServiceState.files heq).trans rfl
  have hEff : (complete s i).effects =
      (cleanupActive (setActive s { a with finalized := true })
        { a with finalized := true }).effects :=
    (congrArg ServiceState.effects heq).trans rfl
  have hSess0 : (complete s i).repo.sessions =
      ((cleanupActive (setActive s { a with finalized := true })
          { a with finalized := true }).repo.completeSession i
        (cleanupActive (setActive s { a with finalized := true })
          { a with finalized := true }).now).sessions :=
    (congrArg (fun st : ServiceState => st.repo.sessions) heq).trans rfl
  rw [cleanup_repo, setActive_repo, cleanup_now, setActive_now] at hSess0
  have hSess1 : (complete s i).repo.sessions =
      updateRow s.repo.sessions i
        (fun row => { row with state := SessionState.completed, endedAt := some s.now }) :=
    hSess0.trans rfl
  refine ⟨?_, ?_, ?_, ?_, ?_⟩
  · unfold lookupActive
    rw [hAct, cleanup_activeSessions, ha1id]
    exact find?_filter_ne_active _ i
  · rw [hFiles, cleanup_files]
    intro hmem
    have := (List.mem_filter.mp hmem).2
    simp at this
  · rw [hEff]
    have := cleanup_countRemove (setActive s { a with finalized := true })
      { a with finalized := true }
    simpa [setActive_effects, setActive_files] using this
  · rw [hEff]
    have := cleanup_countRemote (setActive s { a with finalized := true })
      { a with finalized := true }
    simpa [setActive_effects] using this
  · intro row hrow
    rw [hSess1]
    rw [updateRow_find? s.repo.sessions i i
      (fun row => { row with state := SessionState.completed, endedAt := some s.now })
      (fun r => rfl), hrow]
    have hrid : row.id = i := by simpa using List.find?_some hrow
    simp [hrid]

theorem fail_facts (s : ServiceState) (i : String) (a : ActiveSession) (code message : String)
    (hlk : lookupActive s i = some a) (hfin : a.finalized = false) :
    lookupActive (fail s i code message) i = none ∧
    a.clipPath ∉ (fail s i code message).files ∧
    countRemoveFile a.clipPath (fail s i code message).effects =
      countRemoveFile a.clipPath s.effects + (if a.clipPath ∈ s.files then 1 else 0) ∧
    countRemoteComplete (fail s i code message).effects = countRemoteComplete s.effects ∧
    (∀ row, s.repo.sessions.find? (fun r => r.id == i) = some row →
      (fail s i code message).repo.sessions.find? (fun r => r.id == i) =
        some { row with
                state := SessionState.failed, endedAt := some s.now,
                errorCode := some code, errorMessage := some message }) := by
  have hid : a.id = i := by simpa using List.find?_some hlk
  have heq := fail_eq s i a code message hlk hfin
  have ha1id : ({ a with finalized := true } : ActiveSession).id = i := hid
  have hAct : (fail s i code message).activeSessions =
      (cleanupActive (setActive s { a with finalized := true })
        { a with finalized := true }).activeSessions :=
    (congrArg ServiceState.activeSessions heq).trans rfl
  have hFiles : (fail s i code message).files =
      (cleanupActive (setActive s { a with finalized := true })
        { a with finalized := true }).files :=
    (congrArg ServiceState.files heq).trans rfl
  have hEff : (fail s i code message).effects =
      (cleanupActive (setActive s { a with finalized := true })
        { a with finalized := true }).effects :=
    (congrArg ServiceState.effects heq).trans rfl
  have hSess0 : (fail s i code message).repo.sessions =
      ((cleanupActive (setActive s { a with finalized := true })
          { a with finalized := true }).repo.failSession i code message
        (cleanupActive (setActive s { a with finalized := true })
          { a with finalized := true }).now).sessions :=
    (congrArg (fun st : ServiceState => st.repo.sessions) heq).trans rfl
  rw [cleanup_repo, setActive_repo, cleanup_now, setActive_now] at hSess0
  have hSess1 : (fail s i code message).repo.sessions =
      updateRow s.repo.sessions i
        (fun row => { row with
          state := SessionState.failed, endedAt := some s.now,
          errorCode := some code, errorMessage := some message }) :=
    hSess0.trans rfl
  refine ⟨?_, ?_, ?_, ?_, ?_⟩
  · unfold lookupActive
    rw [hAct, cleanup_activeSessions, ha1id]
    exact find?_filter_ne_active _ i
  · rw [hFiles, cleanup_files]
    intro hmem
    have := (List.mem_filter.mp hmem).2
    simp at this
  · rw [hEff]
    have := cleanup_countRemove (setActive s { a with finalized := true })
      { a with finalized := true }
    simpa [setActive_effects, setActive_files] using this
  · rw [hEff]
    have := cleanup_countRemote (setActive s { a with finalized := true })
      { a with finalized := true }
    simpa [setActive_effects] using this
  · intro row hrow
    rw [hSess1]
    rw [updateRow_find? s.repo.sessions i i
      (fun row => { row with
        state := SessionState.failed, endedAt := some s.now,
        errorCode := some code, errorMessage := some message })
      (fun r => rfl), hrow]
    have hrid : row.id = i := by simpa using List.find?_some hrow
    simp [hrid]

/-! ## Component facts for stopBegin, stopFinish and stop -/

theorem lookupActive_congr (s t : ServiceState) (i : String)
    (h : s.activeSessions = t.activeSessions) : lookupActive s i = lookupActive t i := by
  unfold lookupActive
  rw [h]

theorem stopBegin_files (s : ServiceState) (a : ActiveSession) (reason : StopReason) :
    (stopBegin s a reason).files = s.files := by
  by_cases h1 : a.hasStopTimer <;> by_cases h2 : a.hasPollTimer <;>
    by_cases h3 : a.hasFfmpegChild && !a.childKilled <;>
      simp [stopBegin, h1, h2, h3, transition_files, record_files, setActive_files]

theorem stopBegin_now (s : ServiceState) (a : ActiveSession) (reason : StopReason) :
    (stopBegin s a reason).now = s.now := by
  by_cases h1 : a.hasStopTimer <;> by_cases h2 : a.hasPollTimer <;>
    by_cases h3 : a.hasFfmpegChild && !a.childKilled <;>
      simp [stopBegin, h1, h2, h3, transition_now, record_now, setActive_now]

theorem stopBegin_countRemove (s : ServiceState) (a : ActiveSession) (reason : StopReason)
    (p : String) :
    countRemoveFile p (stopBegin s a reason).effects = countRemoveFile p s.effects := by
  by_cases h1 : a.hasStopTimer <;> by_cases h2 : a.hasPollTimer <;>
    by_cases h3 : a.hasFfmpegChild && !a.childKilled <;>
      simp [stopBegin, h1, h2, h3, transition_effects, record_effects, setActive_effects,
        countRemoveFile, List.countP_append, List.countP_cons, isRemoveFileEff]

theorem stopBegin_countRemote (s : ServiceState) (a : ActiveSession) (reason : StopReason) :
    countRemoteComplete (stopBegin s a reason).effects = countRemoteComplete s.effects := by
  by_cases h1 : a.hasStopTimer <;> by_cases h2 : a.hasPollTimer <;>
    by_cases h3 : a.hasFfmpegChild && !a.childKilled <;>
      simp [stopBegin, h1, h2, h3, transition_effects, record_effects, setActive_effects,
        countRemoteComplete, List.countP_append, List.countP_cons, isRemoteCompleteEff]

theorem stopBegin_sessions (s : ServiceState) (a : ActiveSession) (reason : StopReason) :
    (stopBegin s a reason).repo.sessions =
      (transition (setActive s { a with stopping := true }) a.id
        SessionState.stopping).repo.sessions := by
  by_cases h1 : a.hasStopTimer <;> by_cases h2 : a.hasPollTimer <;>
    by_cases h3 : a.hasFfmpegChild && !a.childKilled <;>
      simp [stopBegin, h1, h2, h3, record_sessions, setActive_repo]

theorem stopBegin_find?_isSome (s : ServiceState) (a : ActiveSession) (reason : StopReason)
    (j : String) :
    ((stopBegin s a reason).repo.sessions.find? (fun r => r.id == j)).isSome =
      (s.repo.sessions.find? (fun r => r.id == j)).isSome := by
  rw [stopBegin_sessions]
  rw [transition_find?_isSome]
  rw [setActive_repo]

theorem stopBegin_activeSessions (s : ServiceState) (a : ActiveSession) (reason : StopReason) :
    (stopBegin s a reason).activeSessions =
      (if a.hasFfmpegChild && !a.childKilled then
        (setActive (setActive s { a with stopping := true })
          { a with stopping := true, childKilled := true }).activeSessions
       else (setActive s { a with stopping := true }).activeSessions) := by
  by_cases h1 : a.hasStopTimer <;> by_cases h2 : a.hasPollTimer <;>
    by_cases h3 : a.hasFfmpegChild && !a.childKilled <;>
      simp [stopBegin, h1, h2, h3, transition_activeSessions, record_activeSessions, setActive]

theorem stopBegin_lookup (s : ServiceState) (i : String) (a : ActiveSession) (reason : StopReason)
    (hlk : lookupActive s i = some a) :
    lookupActive (stopBegin s a reason) i =
      some (if a.hasFfmpegChild && !a.childKilled then
        { a with stopping := true, childKilled := true }
      else { a with stopping := true }) := by
  have hid : a.id = i := by simpa using List.find?_some hlk
  have ha1i : ({ a with stopping := true } : ActiveSession).id = i := hid
  have hl1 : lookupActive (setActive s { a with stopping := true }) i =
      some { a with stopping := true } :=
    lookup_setActive_found s { a with stopping := true } a i hlk ha1i
  by_cases h3 : a.hasFfmpegChild && !a.childKilled
  · have hcongr := lookupActive_congr (stopBegin s a reason)
      (setActive (setActive s { a with stopping := true })
        { a with stopping := true, childKilled := true }) i
      (by rw [stopBegin_activeSessions]; simp [h3])
    rw [hcongr]
    have ha2i : ({ a with stopping := true, childKilled := true } : ActiveSession).id = i := hid
    rw [lookup_setActive_found (setActive s { a with stopping := true })
      { a with stopping := true, childKilled := true } { a with stopping := true } i hl1 ha2i]
    simp [h3]
  · have hcongr := lookupActive_congr (stopBegin s a reason)
      (setActive s { a with stopping := true }) i
      (by rw [stopBegin_activeSessions]; simp [h3])
    rw [hcongr, hl1]
    simp [h3]

theorem complete_after_mid (s mid : ServiceState) (i : String) (a a2 : ActiveSession)
    (d : Nat)
    (hml : lookupActive mid i = some a2)
    (ha2clip : a2.clipPath = a.clipPath) (hfin2 : a2.finalized = false)
    (hmf : mid.files = s.files)
    (hmcrm : countRemoveFile a.clipPath mid.effects = countRemoveFile a.clipPath s.effects)
    (hmcrc : countRemoteComplete mid.effects = countRemoteComplete s.effects + d)
    (hmrow : (mid.repo.sessions.find? (fun r => r.id == i)).isSome =
      (s.repo.sessions.find? (fun r => r.id == i)).isSome) :
    lookupActive (complete mid i) i = none ∧
    a.clipPath ∉ (complete mid i).files ∧
    countRemoveFile a.clipPath (complete mid i).effects =
      countRemoveFile a.clipPath s.effects + (if a.clipPath ∈ s.files then 1 else 0) ∧
    countRemoteComplete (complete mid i).effects = countRemoteComplete s.effects + d ∧
    ((s.repo.sessions.find? (fun r => r.id == i)).isSome →
      ∃ row1, (complete mid i).repo.sessions.find? (fun r => r.id == i) = some row1 ∧
        row1.state = SessionState.completed) := by
  obtain ⟨h1, h2, h3, h4, h5⟩ := complete_facts mid i a2 hml hfin2
  rw [ha2clip] at h2 h3
  rw [hmf] at h3
  rw [hmcrm] at h3
  rw [hmcrc] at h4
  refine ⟨h1, h2, h3, h4, ?_⟩
  intro hSome
  rw [← hmrow] at hSome
  obtain ⟨row, hrow⟩ := Option.isSome_iff_exists.mp hSome
  exact ⟨_, h5 row hrow, rfl⟩

theorem stopFinish_run (s sB : ServiceState) (i : String) (aBase a2 : ActiveSession)
    (remoteFailure : Option String)
    (hids : aBase.id = i)
    (hml : lookupActive sB i = some a2)
    (ha2clip : a2.clipPath = aBase.clipPath)
    (hfin2 : a2.finalized = false)
    (hmf : sB.files = s.files)
    (hmcrm : countRemoveFile aBase.clipPath sB.effects =
      countRemoveFile aBase.clipPath s.effects)
    (hmcrc : countRemoteComplete sB.effects = countRemoteComplete s.effects)
    (hmrow : (sB.repo.sessions.find? (fun r => r.id == i)).isSome =
      (s.repo.sessions.find? (fun r => r.id == i)).isSome) :
    lookupActive (stopFinish sB aBase remoteFailure) i = none ∧
    aBase.clipPath ∉ (stopFinish sB aBase remoteFailure).files ∧
    countRemoveFile aBase.clipPath (stopFinish sB aBase remoteFailure).effects =
      countRemoveFile aBase.clipPath s.effects +
        (if aBase.clipPath ∈ s.files then 1 else 0) ∧
    countRemoteComplete (stopFinish sB aBase remoteFailure).effects =
      countRemoteComplete s.effects + (if aBase.broadcastId.isSome then 1 else 0) ∧
    ((s.repo.sessions.find? (fun r => r.id == i)).isSome →
      ∃ row1, (stopFinish sB aBase remoteFailure).repo.sessions.find? (fun r => r.id == i) =
        some row1 ∧ row1.state = SessionState.completed) := by
  cases hbc : aBase.broadcastId with
  | none =>
    have hsf : stopFinish sB aBase remoteFailure = complete sB aBase.id := by
      unfold stopFinish
      rw [hbc]
    rw [hsf, hids]
    have H := complete_after_mid s sB i aBase a2 0 hml ha2clip hfin2 hmf hmcrm
      (by rw [hmcrc, Nat.add_zero]) hmrow
    simpa using H
  | some b =>
    cases remoteFailure with
    | none =>
      have hsf : stopFinish sB aBase none =
          complete { sB with
            effects := sB.effects ++ [Effect.remoteComplete aBase.profileId b] }
            aBase.id := by
        unfold stopFinish
        rw [hbc]
      rw [hsf, hids]
      have H := complete_after_mid s
        { sB with effects := sB.effects ++ [Effect.remoteComplete aBase.profileId b] }
        i aBase a2 1
        ((lookupActive_congr _ sB i rfl).trans hml)
        ha2clip hfin2 hmf
        (by
          show List.countP _ _ = _
          rw [List.countP_append]
          have h0 : List.countP (isRemoveFileEff aBase.clipPath)
              [Effect.remoteComplete aBase.profileId b] = 0 := by
            simp [List.countP_cons, isRemoveFileEff]
          rw [h0]
          simpa using hmcrm)
        (by
          show List.countP _ _ = _
          rw [List.countP_append]
          have h1 : List.countP isRemoteCompleteEff
              [Effect.remoteComplete aBase.profileId b] = 1 := by
            simp [List.countP_cons, isRemoteCompleteEff]
          rw [h1]
          simpa [countRemoteComplete] using hmcrc)
        hmrow
      simpa using H
    | some msg =>
      have hsf : stopFinish sB aBase (some msg) =
          complete (record { sB with
              effects := sB.effects ++ [Effect.remoteComplete aBase.profileId b] }
            aBase.id EventLevel.warn "YOUTUBE_COMPLETE_WARN" msg)
            aBase.id := by
        unfold stopFinish
        rw [hbc]
      rw [hids] at hsf
      rw [hsf]
      have H := complete_after_mid s
        (record { sB with
            effects := sB.effects ++ [Effect.remoteComplete aBase.profileId b] }
          i EventLevel.warn "YOUTUBE_COMPLETE_WARN" msg)
        i aBase a2 1
        ((lookupActive_congr _ sB i rfl).trans hml)
        ha2clip hfin2
        (by rw [record_files]; exact hmf)
        (by
          rw [record_effects]
          show List.countP _ _ = _
          rw [List.countP_append]
          have h0 : List.countP (isRemoveFileEff aBase.clipPath)
              [Effect.remoteComplete aBase.profileId b] = 0 := by
            simp [List.countP_cons, isRemoveFileEff]
          rw [h0]
          simpa using hmcrm)
        (by
          rw [record_effects]
          show List.countP _ _ = _
          rw [List.countP_append]
          have h1 : List.countP isRemoteCompleteEff
              [Effect.remoteComplete aBase.profileId b] = 1 := by
            simp [List.countP_cons, isRemoteCompleteEff]
          rw [h1]
          simpa [countRemoteComplete] using hmcrc)
        (by rw [record_sessions]; exact hmrow)
      simpa using H

theorem stop_run (s : ServiceState) (i : String) (a : ActiveSession) (reason : StopReason)
    (remoteFailure : Option String)
    (hlk : lookupActive s i = some a) (hstop : a.stopping = false)
    (hfin : a.finalized = false) :
    (stop s i reason remoteFailure).1 = true ∧
    lookupActive (stop s i reason remoteFailure).2 i = none ∧
    a.clipPath ∉ (stop s i reason remoteFailure).2.files ∧
    countRemoveFile a.clipPath (stop s i reason remoteFailure).2.effects =
      countRemoveFile a.clipPath s.effects + (if a.clipPath ∈ s.files then 1 else 0) ∧
    countRemoteComplete (stop s i reason remoteFailure).2.effects =
      countRemoteComplete s.effects + (if a.broadcastId.isSome then 1 else 0) ∧
    ((s.repo.sessions.find? (fun r => r.id == i)).isSome →
      ∃ row1, (stop s i reason remoteFailure).2.repo.sessions.find? (fun r => r.id == i) =
        some row1 ∧ row1.state = SessionState.completed) := by
  have hid : a.id = i := by simpa using List.find?_some hlk
  have hsb := stopBegin_lookup s i a reason hlk
  have hstopEq : stop s i reason remoteFailure =
      (true, stopFinish (stopBegin s a reason) { a with stopping := true } remoteFailure) := by
    unfold stop
    rw [hlk]
    simp [hstop]
  have ha2clip : (if a.hasFfmpegChild && !a.childKilled then
      ({ a with stopping := true, childKilled := true } : ActiveSession)
    else { a with stopping := true }).clipPath = a.clipPath := by
    by_cases h3 : a.hasFfmpegChild && !a.childKilled <;> simp [h3]
  have ha2fin : (if a.hasFfmpegChild && !a.childKilled then
      ({ a with stopping := true, childKilled := true } : ActiveSession)
    else { a with stopping := true }).finalized = false := by
    by_cases h3 : a.hasFfmpegChild && !a.childKilled <;> simp [h3, hfin]
  have H := stopFinish_run s (stopBegin s a reason) i { a with stopping := true }
    (if a.hasFfmpegChild && !a.childKilled then
      ({ a with stopping := true, childKilled := true } : ActiveSession)
    else { a with stopping := true })
    remoteFailure hid hsb ha2clip ha2fin
    (stopBegin_files s a reason)
    (stopBegin_countRemove s a reason a.clipPath)
    (stopBegin_countRemote s a reason)
    (stopBegin_find?_isSome s a reason i)
  refine ⟨by rw [hstopEq], ?_, ?_, ?_, ?_, ?_⟩
  · rw [hstopEq]
    exact H.1
  · rw [hstopEq]
    exact H.2.1
  · rw [hstopEq]
    exact H.2.2.1
  · rw [hstopEq]
    exact H.2.2.2.1
  · rw [hstopEq]
    exact H.2.2.2.2

theorem record_lookup (s : ServiceState) (i : String) (l : EventLevel) (c m : String)
    (j : String) : lookupActive (record s i l c m) j = lookupActive s j := rfl

theorem stop_of_none (s : ServiceState) (i : String) (reason : StopReason)
    (rf : Option String) (h : lookupActive s i = none) :
    stop s i reason rf = (false, s) := by
  unfold stop
  rw [h]

theorem stop_of_stopping (s : ServiceState) (i : String) (a : ActiveSession)
    (reason : StopReason) (rf : Option String)
    (ha : lookupActive s i = some a) (hs : a.stopping = true) :
    stop s i reason rf = (true, s) := by
  unfold stop
  rw [ha]
  simp [hs]

/-! ## Claim theorems -/

/-- Claim C1: once a session is finalized the registry entry is destroyed,
so a late stop-timer tick (a `stop` call), a late poll result and a late
process-exit callback are no-ops; if an entry were still present with the
finalized flag set, the poll and exit handlers check the guard first and do
nothing; the poll error callback appends only a warning log event and never
touches session rows, registry, files or effects. -/
theorem finalized_guard_noops (s : ServiceState) (sessionId : String)
    (reason : StopReason) (remoteFailure : Option String) (code : Option Int)
    (signal : Option String) (lifecycle : LifecycleProgress) (message : String) :
    (lookupActive s sessionId = none →
      stop s sessionId reason remoteFailure = (false, s) ∧
      handleProcessExit s sessionId code signal remoteFailure = s ∧
      pollResult s sessionId lifecycle = s) ∧
    (∀ a, lookupActive s sessionId = some a → a.finalized = true →
      handleProcessExit s sessionId code signal remoteFailure = s ∧
      pollResult s sessionId lifecycle = s) ∧
    ((pollError s sessionId message).repo.sessions = s.repo.sessions ∧
     (pollError s sessionId message).activeSessions = s.activeSessions ∧
     (pollError s sessionId message).files = s.files ∧
     (pollError s sessionId message).effects = s.effects) := by
  refine ⟨?_, ?_, rfl, rfl, rfl, rfl⟩
  · intro h
    refine ⟨stop_of_none s sessionId reason remoteFailure h, ?_, ?_⟩
    · unfold handleProcessExit
      rw [h]
    · unfold pollResult
      rw [h]
  · intro a ha hfin
    constructor
    · unfold handleProcessExit
      rw [ha]
      simp [hfin]
    · unfold pollResult
      rw [ha]
      simp [hfin]

/-- Claim C1 witness: in a state where sY has no registry entry and the
entry of sX is finalized, the late triggers change nothing. -/
theorem finalized_guard_noops_check :
    stop c1State "sY" StopReason.manual none = (false, c1State) ∧
    handleProcessExit c1State "sX" (some 0) none none = c1State ∧
    pollResult c1State "sX" ⟨StreamLifecycleState.live, false, true⟩ = c1State := by
  have h1 := (finalized_guard_noops c1State "sY" StopReason.manual none (some 0) none
    ⟨StreamLifecycleState.live, false, true⟩ "late poll failure").1 rfl
  have h2 := (finalized_guard_noops c1State "sX" StopReason.manual none (some 0) none
    ⟨StreamLifecycleState.live, false, true⟩ "late poll failure").2.1
    (wActive "sX" false true) rfl rfl
  exact ⟨h1.1, h2.1, h2.2⟩

/-- Claim C2: stop on an unknown session returns false; a session already
marked stopping returns true at once with no further work (this is exactly
what a second concurrent call interleaved after the first marked the flag
observes); a first stop on a running session returns true, deletes the
registry entry, removes the temp clip exactly once, attempts the remote
complete transition at most once (exactly when remote identifiers exist),
and a subsequent call returns false with no further cleanup. -/
theorem stop_idempotency (s : ServiceState) (sessionId : String)
    (reason reason2 : StopReason) (r1 r2 : Option String) :
    (lookupActive s sessionId = none → stop s sessionId reason r1 = (false, s)) ∧
    (∀ a, lookupActive s sessionId = some a → a.stopping = true →
      stop s sessionId reason r1 = (true, s)) ∧
    (∀ a, lookupActive s sessionId = some a → a.stopping = false → a.finalized = false →
      (stop s sessionId reason r1).1 = true ∧
      lookupActive (stop s sessionId reason r1).2 sessionId = none ∧
      stop (stop s sessionId reason r1).2 sessionId reason2 r2 =
        (false, (stop s sessionId reason r1).2) ∧
      countRemoveFile a.clipPath (stop s sessionId reason r1).2.effects =
        countRemoveFile a.clipPath s.effects + (if a.clipPath ∈ s.files then 1 else 0) ∧
      countRemoteComplete (stop s sessionId reason r1).2.effects =
        countRemoteComplete s.effects + (if a.broadcastId.isSome then 1 else 0) ∧
      stop (stopBegin s a reason) sessionId reason2 r2 =
        (true, stopBegin s a reason)) := by
  refine ⟨?_, ?_, ?_⟩
  · intro h
    exact stop_of_none s sessionId reason r1 h
  · intro a ha hs
    exact stop_of_stopping s sessionId a reason r1 ha hs
  · intro a ha hs hf
    obtain ⟨H1, H2, _, H4, H5, _⟩ := stop_run s sessionId a reason r1 ha hs hf
    refine ⟨H1, H2, ?_, H4, H5, ?_⟩
    · exact stop_of_none _ sessionId reason2 r2 H2
    · have hsb := stopBegin_lookup s sessionId a reason ha
      have hstopping : (if a.hasFfmpegChild && !a.childKilled then
          ({ a with stopping := true, childKilled := true } : ActiveSession)
        else { a with stopping := true }).stopping = true := by
        by_cases h3 : a.hasFfmpegChild && !a.childKilled <;> simp [h3]
      exact stop_of_stopping (stopBegin s a reason) sessionId _ reason2 r2 hsb hstopping

/-- Claim C2 witness: a live session with its clip on disk and a broadcast
attached: the first stop does the cleanup once, the second call is a
no-op returning false, and a call interleaved after the stopping mark
returns true without further work. -/
theorem stop_idempotency_check :
    (stop c2State "s1" StopReason.manual none).1 = true ∧
    lookupActive (stop c2State "s1" StopReason.manual none).2 "s1" = none ∧
    stop (stop c2State "s1" StopReason.manual none).2 "s1" StopReason.manual none =
      (false, (stop c2State "s1" StopReason.manual none).2) ∧
    countRemoveFile (wActive "s1" false false).clipPath
        (stop c2State "s1" StopReason.manual none).2.effects =
      countRemoveFile (wActive "s1" false false).clipPath c2State.effects +
        (if (wActive "s1" false false).clipPath ∈ c2State.files then 1 else 0) ∧
    countRemoteComplete (stop c2State "s1" StopReason.manual none).2.effects =
      countRemoteComplete c2State.effects +
        (if (wActive "s1" false false).broadcastId.isSome then 1 else 0) ∧
    stop (stopBegin c2State (wActive "s1" false false) StopReason.manual) "s1"
        StopReason.manual none =
      (true, stopBegin c2State (wActive "s1" false false) StopReason.manual) :=
  (stop_idempotency c2State "s1" StopReason.manual StopReason.manual none none).2.2
    (wActive "s1" false false) rfl rfl rfl

/-- Claim C10: finalization (through `complete` or `fail`) deletes the
registry entry, and `stop` consults only that registry, so a subsequent
stop on a session that reached a terminal state returns false exactly as
for a session id that never existed. -/
theorem stop_after_terminal_returns_false (s : ServiceState) (sessionId : String)
    (a : ActiveSession) (code message : String) (reason : StopReason)
    (remoteFailure : Option String)
    (hlk : lookupActive s sessionId = some a) (hfin : a.finalized = false) :
    lookupActive (complete s sessionId) sessionId = none ∧
    lookupActive (fail s sessionId code message) sessionId = none ∧
    stop (complete s sessionId) sessionId reason remoteFailure =
      (false, complete s sessionId) ∧
    stop (fail s sessionId code message) sessionId reason remoteFailure =
      (false, fail s sessionId code message) := by
  have h1 := (complete_facts s sessionId a hlk hfin).1
  have h2 := (fail_facts s sessionId a code message hlk hfin).1
  exact ⟨h1, h2, stop_of_none _ sessionId reason remoteFailure h1,
    stop_of_none _ sessionId reason remoteFailure h2⟩

/-- Claim C10 witness: after completing or failing the running session s1,
stop returns false on it. -/
theorem stop_after_terminal_returns_false_check :
    lookupActive (complete c2State "s1") "s1" = none ∧
    lookupActive (fail c2State "s1" "X" "boom") "s1" = none ∧
    stop (complete c2State "s1") "s1" StopReason.manual none =
      (false, complete c2State "s1") ∧
    stop (fail c2State "s1" "X" "boom") "s1" StopReason.manual none =
      (false, fail c2State "s1" "X" "boom") :=
  stop_after_terminal_returns_false c2State "s1" (wActive "s1" false false) "X" "boom"
    StopReason.manual none rfl rfl

/-- Claim C3: a subprocess exit observed while the session is neither
stopping nor finalized drives the session terminal: exit code 0 goes
through the regular stop path with reason process and ends in state
completed; any other code or signal records the abnormal exit and fails the
session with code FFMPEG_EXIT_ERROR without attempting the remote complete
transition; on both paths the temp clip file is gone afterwards and the
registry entry is deleted. -/
theorem process_exit_terminal_outcomes (s : ServiceState) (sessionId : String)
    (a : ActiveSession) (code : Option Int) (signal : Option String)
    (remoteFailure : Option String)
    (hlk : lookupActive s sessionId = some a) (hstop : a.stopping = false)
    (hfin : a.finalized = false)
    (hrow : (s.repo.sessions.find? (fun r => r.id == sessionId)).isSome) :
    (code = some 0 →
      handleProcessExit s sessionId code signal remoteFailure =
        (stop (record s sessionId EventLevel.info "FFMPEG_EXIT"
          "ffmpeg exited naturally; finalizing session") sessionId StopReason.process
          remoteFailure).2 ∧
      (∃ row1, (handleProcessExit s sessionId code signal remoteFailure).repo.sessions.find?
          (fun r => r.id == sessionId) = some row1 ∧ row1.state = SessionState.completed) ∧
      lookupActive (handleProcessExit s sessionId code signal remoteFailure) sessionId = none ∧
      a.clipPath ∉ (handleProcessExit s sessionId code signal remoteFailure).files) ∧
    (code ≠ some 0 →
      (∃ row1, (handleProcessExit s sessionId code signal remoteFailure).repo.sessions.find?
          (fun r => r.id == sessionId) = some row1 ∧ row1.state = SessionState.failed ∧
          row1.errorCode = some "FFMPEG_EXIT_ERROR") ∧
      lookupActive (handleProcessExit s sessionId code signal remoteFailure) sessionId = none ∧
      a.clipPath ∉ (handleProcessExit s sessionId code signal remoteFailure).files ∧
      countRemoteComplete (handleProcessExit s sessionId code signal remoteFailure).effects =
        countRemoteComplete s.effects) := by
  constructor
  · intro h0
    have hEq : handleProcessExit s sessionId code signal remoteFailure =
        (stop (record s sessionId EventLevel.info "FFMPEG_EXIT"
          "ffmpeg exited naturally; finalizing session") sessionId StopReason.process
          remoteFailure).2 := by
      unfold handleProcessExit
      rw [hlk]
      simp [hfin, hstop, h0]
    have hlkR : lookupActive (record s sessionId EventLevel.info "FFMPEG_EXIT"
        "ffmpeg exited naturally; finalizing session") sessionId = some a := hlk
    obtain ⟨_, H2, H3, _, _, H6⟩ := stop_run
      (record s sessionId EventLevel.info "FFMPEG_EXIT"
        "ffmpeg exited naturally; finalizing session")
      sessionId a StopReason.process remoteFailure hlkR hstop hfin
    refine ⟨hEq, ?_, ?_, ?_⟩
    · rw [hEq]
      exact H6 hrow
    · rw [hEq]
      exact H2
    · rw [hEq]
      exact H3
  · intro hne
    have hEq : handleProcessExit s sessionId code signal remoteFailure =
        fail (record s sessionId EventLevel.error "FFMPEG_EXIT_ERROR"
            ("ffmpeg exited unexpectedly (code=" ++ showIntOpt code ++ ", signal=" ++
              showStrOpt signal ++ ")"))
          sessionId "FFMPEG_EXIT_ERROR"
          ("ffmpeg exited unexpectedly (code=" ++ showIntOpt code ++ ", signal=" ++
            showStrOpt signal ++ ")") := by
      unfold handleProcessExit
      rw [hlk]
      simp [hfin, hstop, hne]
    have hlkR : lookupActive (record s sessionId EventLevel.error "FFMPEG_EXIT_ERROR"
        ("ffmpeg exited unexpectedly (code=" ++ showIntOpt code ++ ", signal=" ++
          showStrOpt signal ++ ")")) sessionId = some a := hlk
    obtain ⟨F1, F2, F3, F4, F5⟩ := fail_facts
      (record s sessionId EventLevel.error "FFMPEG_EXIT_ERROR"
        ("ffmpeg exited unexpectedly (code=" ++ showIntOpt code ++ ", signal=" ++
          showStrOpt signal ++ ")"))
      sessionId a "FFMPEG_EXIT_ERROR"
      ("ffmpeg exited unexpectedly (code=" ++ showIntOpt code ++ ", signal=" ++
        showStrOpt signal ++ ")")
      hlkR hfin
    refine ⟨?_, ?_, ?_, ?_⟩
    · rw [hEq]
      obtain ⟨row, hrowEq⟩ := Option.isSome_iff_exists.mp hrow
      exact ⟨_, F5 row hrowEq, rfl, rfl⟩
    · rw [hEq]
      exact F1
    · rw [hEq]
      exact F2
    · rw [hEq]
      exact F4

/-- Claim C3 witness: on the running session s1, exit code 0 ends in
completed and exit code 1 ends in failed with the abnormal-exit code, the
registry entry deleted and the clip file gone both times. -/
theorem process_exit_terminal_outcomes_check :
    ((∃ row1, (handleProcessExit c2State "s1" (some 0) none none).repo.sessions.find?
        (fun r => r.id == "s1") = some row1 ∧ row1.state = SessionState.completed) ∧
      lookupActive (handleProcessExit c2State "s1" (some 0) none none) "s1" = none ∧
      (wActive "s1" false false).clipPath ∉
        (handleProcessExit c2State "s1" (some 0) none none).files) ∧
    ((∃ row1, (handleProcessExit c2State "s1" (some 1) none none).repo.sessions.find?
        (fun r => r.id == "s1") = some row1 ∧ row1.state = SessionState.failed ∧
        row1.errorCode = some "FFMPEG_EXIT_ERROR") ∧
      lookupActive (handleProcessExit c2State "s1" (some 1) none none) "s1" = none ∧
      countRemoteComplete (handleProcessExit c2State "s1" (some 1) none none).effects =
        countRemoteComplete c2State.effects) := by
  have Hclean := (process_exit_terminal_outcomes c2State "s1" (wActive "s1" false false)
    (some 0) none none rfl rfl rfl rfl).1 rfl
  have Hfail := (process_exit_terminal_outcomes c2State "s1" (wActive "s1" false false)
    (some 1) none none rfl rfl rfl rfl).2 (by decide)
  exact ⟨⟨Hclean.2.1, Hclean.2.2.1, Hclean.2.2.2⟩, Hfail.1, Hfail.2.1, Hfail.2.2.2⟩

theorem updateRow_no_match (l : List SessionRow) (i : String) (f : SessionRow → SessionRow)
    (h : ∀ r ∈ l, r.id ≠ i) : updateRow l i f = l := by
  induction l with
  | nil => rfl
  | cons hd tl ih =>
    have hhd : hd.id ≠ i := h hd (List.mem_cons_self hd tl)
    have htl := ih fun r hr => h r (List.mem_cons_of_mem hd hr)
    unfold updateRow at htl ⊢
    rw [List.map_cons, htl, if_neg (by simp [hhd])]

theorem updateRow_eq_self (l : List SessionRow) (i : String) (f : SessionRow → SessionRow)
    (hnd : (l.map SessionRow.id).Nodup)
    (hfix : ∀ row, l.find? (fun r => r.id == i) = some row → f row = row) :
    updateRow l i f = l := by
  induction l with
  | nil => rfl
  | cons hd tl ih =>
    have hcons : hd.id ∉ tl.map SessionRow.id ∧ (tl.map SessionRow.id).Nodup :=
      List.nodup_cons.mp (by simpa using hnd)
    by_cases hh : hd.id = i
    · have hfh : f hd = hd := hfix hd (by simp [List.find?_cons, hh])
      have hnotin : ∀ r ∈ tl, r.id ≠ i := by
        intro r hr he
        exact hcons.1 (List.mem_map.mpr ⟨r, hr, by rw [he, hh]⟩)
      have htl := updateRow_no_match tl i f hnotin
      unfold updateRow at htl ⊢
      rw [List.map_cons, htl, if_pos (by simp [hh]), hfh]
    · have hfix2 : ∀ row, tl.find? (fun r => r.id == i) = some row → f row = row := by
        intro row hr
        exact hfix row (by simp [List.find?_cons, hh, hr])
      have htl := ih hcons.2 hfix2
      unfold updateRow at htl ⊢
      rw [List.map_cons, htl, if_neg (by simp [hh])]

theorem transition_eq_of_summary (s : ServiceState) (i : String) (t : SessionState)
    (cur : SessionSummary) (hsum : s.repo.getSessionSummary i = some cur) :
    transition s i t =
      if cur.state ≠ t ∧ canTransitionSession cur.state t = false then
        record s i EventLevel.warn "INVALID_TRANSITION"
          ("Ignoring invalid transition " ++ cur.state.toStr ++ " -> " ++ t.toStr)
      else
        record { s with repo := s.repo.updateSessionState i t } i EventLevel.info
          "STATE_CHANGE" ("Session state changed to " ++ t.toStr) := by
  unfold transition
  rw [hsum]

/-- Claim C6 counterexample: the source table also contains the edge
testing → stopping, which is neither a consecutive edge of the claimed
chain nor an edge to failed, so the claimed exact characterization is false
at (testing, stopping). -/
theorem canTransitionSession_extra_edge_cx :
    canTransitionSession SessionState.testing SessionState.stopping = true ∧
    specSessionAllowed SessionState.testing SessionState.stopping = false := by decide

/-- Claim C6 (amended): `canTransitionSession` returns true exactly for the
consecutive chain edges, the edge from every non-terminal state to failed,
and additionally the edge testing → stopping; terminal states have no
outgoing edges. -/
theorem canTransitionSession_table_characterization :
    ∀ f t, canTransitionSession f t = specSessionAllowedAmended f t := by decide

/-- Claim C7 counterexample: an attempted transition from testing to itself
bypasses the table check (the source guards only when the states differ):
the orchestrator writes the same state back and records an info
STATE_CHANGE event, not the claimed no-op warning. -/
theorem self_transition_records_info_cx :
    (transition c7State "s1" SessionState.testing).repo.events =
      [{ sessionId := "s1", ts := "t0", level := EventLevel.info, code := "STATE_CHANGE",
         message := "Session state changed to testing" }] ∧
    (∀ e ∈ (transition c7State "s1" SessionState.testing).repo.events,
      e.level ≠ EventLevel.warn) := by
  constructor
  · rfl
  · decide

/-- Claim C7 (amended): no state has a self-loop in either table; a
disallowed transition between distinct states leaves the rows untouched and
records only an INVALID_TRANSITION warning; an attempt from a state to
itself bypasses the table check, rewrites the same state value (leaving the
rows unchanged when ids are unique) and records a regular STATE_CHANGE info
event rather than a warning; no path throws. -/
theorem transition_disallowed_behaviour :
    (∀ st : SessionState, st.isTerminal = false → canTransitionSession st st = false) ∧
    (∀ st : StreamLifecycleState, st ≠ StreamLifecycleState.complete →
      canTransitionStream st st = false) ∧
    (∀ (s : ServiceState) (i : String) (t : SessionState) (cur : SessionSummary),
      s.repo.getSessionSummary i = some cur → cur.state ≠ t →
      canTransitionSession cur.state t = false →
        (transition s i t).repo.sessions = s.repo.sessions ∧
        (transition s i t).repo.events = s.repo.events ++
          [{ sessionId := i, ts := s.now, level := EventLevel.warn,
             code := "INVALID_TRANSITION",
             message := "Ignoring invalid transition " ++ cur.state.toStr ++ " -> " ++
               t.toStr }] ∧
        (transition s i t).activeSessions = s.activeSessions) ∧
    (∀ (s : ServiceState) (i : String) (cur : SessionSummary),
      s.repo.getSessionSummary i = some cur →
      (s.repo.sessions.map SessionRow.id).Nodup →
        (transition s i cur.state).repo.sessions = s.repo.sessions ∧
        (transition s i cur.state).repo.events = s.repo.events ++
          [{ sessionId := i, ts := s.now, level := EventLevel.info, code := "STATE_CHANGE",
             message := "Session state changed to " ++ cur.state.toStr }]) := by
  refine ⟨by decide, by decide, ?_, ?_⟩
  · intro s i t cur hsum hne hcan
    rw [transition_eq_of_summary s i t cur hsum, if_pos ⟨hne, hcan⟩]
    exact ⟨rfl, rfl, rfl⟩
  · intro s i cur hsum hnd
    rw [transition_eq_of_summary s i cur.state cur hsum, if_neg (by simp)]
    have hrows : updateRow s.repo.sessions i
        (fun row => { row with state := cur.state }) = s.repo.sessions := by
      apply updateRow_eq_self s.repo.sessions i _ hnd
      intro row hrow
      have h0 : s.repo.getSessionSummary i = some (summaryOfRow row) := by
        unfold RepoState.getSessionSummary
        rw [hrow]
        rfl
      rw [hsum] at h0
      have hcur : cur = summaryOfRow row := Option.some_inj.mp h0
      have hstate : cur.state = row.state := by rw [hcur]; rfl
      show ({ row with state := cur.state } : SessionRow) = row
      rw [hstate]
    constructor
    · exact hrows
    · rfl

/-- Claim C7 witness: at the state holding row s1 in state testing, a
self-transition attempt and a disallowed distinct transition both leave the
rows unchanged, and the self-loop checks return false. -/
theorem transition_disallowed_behaviour_check :
    canTransitionSession SessionState.testing SessionState.testing = false ∧
    canTransitionStream StreamLifecycleState.live StreamLifecycleState.live = false ∧
    (transition c7State "s1" SessionState.idle).repo.sessions = c7State.repo.sessions ∧
    (transition c7State "s1" SessionState.testing).repo.sessions =
      c7State.repo.sessions := by
  have T := transition_disallowed_behaviour
  refine ⟨T.1 SessionState.testing rfl, T.2.1 StreamLifecycleState.live (by decide), ?_, ?_⟩
  · exact (T.2.2.1 c7State "s1" SessionState.idle c7Summary rfl (by decide) (by decide)).1
  · exact (T.2.2.2 c7State "s1" c7Summary rfl (by decide)).1

set_option maxHeartbeats 1600000 in
/-- Claim C5: for a positive clip duration, `computeEffectiveDuration` is a
pure function of its arguments that returns the minimum over the enabled
candidate durations (repeats → clip times maxRepeats, explicit cap →
itself, end time → floor of the remaining seconds) together with the full
candidate list, and it succeeds exactly when at least one rule is enabled
(JavaScript-truthy), the enabled end time parses (an unparseable date is
the non-finite candidate), and every candidate — equivalently the selected
minimum — is positive. -/
theorem computeEffectiveDuration_spec (parseDate : String → Option Int)
    (input : EffectiveDurationInput) (hclip : 0 < input.clipDurationSec) :
    (∀ comp, computeEffectiveDuration parseDate input = Except.ok comp →
      comp.candidates = specEnabledCandidates parseDate input ∧
      comp.effectiveDurationSec =
        mathMin ((specEnabledCandidates parseDate input).map Candidate.durationSec) ∧
      0 < comp.effectiveDurationSec) ∧
    ((computeEffectiveDuration parseDate input).isOk = true ↔
      (specEnabledCandidates parseDate input ≠ [] ∧
       specEndAtOk parseDate input.stop = true ∧
       ∀ c ∈ specEnabledCandidates parseDate input, 0 < c.durationSec)) := by
  obtain ⟨clip, ⟨mr, md, ea⟩, now⟩ := input
  dsimp only at hclip ⊢
  rcases hmr : truthyNum mr with _ | r <;>
    rcases hmd : truthyNum md with _ | m <;>
      rcases hea : truthyStr ea with _ | iso
  · simp only [computeEffectiveDuration, repeatsCandidates, maxDurationCandidates,
      endAtCandidates, ensureValidEndAt, assertPositive, specEnabledCandidates, specEndAtOk,
      hmr, hmd, hea, hclip.not_le, if_false]
    (try split_ifs) <;>
      (try simp_all [mathMin, lt_min_iff, not_le, not_lt, not_or, Except.isOk,
        Except.toBool]) <;>
      (try split_ifs) <;>
      (try simp_all [mathMin, lt_min_iff, not_le, not_lt, not_or, Except.isOk,
        Except.toBool]) <;>
      (try intro hr9) <;>
      (try cases ‹_ ∨ _›) <;>
      (try cases ‹_ ∨ _›) <;>
      (try assumption) <;>
      (try nlinarith [hclip]) <;>
      (try (exfalso; nlinarith [hclip]))
  · rcases hpd : parseDate iso with _ | v
    · simp only [computeEffectiveDuration, repeatsCandidates, maxDurationCandidates,
        endAtCandidates, ensureValidEndAt, assertPositive, specEnabledCandidates, specEndAtOk,
        hmr, hmd, hea, hpd, hclip.not_le, if_false]
      (try split_ifs) <;>
        (try simp_all [mathMin, lt_min_iff, not_le, not_lt, not_or, Except.isOk,
          Except.toBool]) <;>
        (try split_ifs) <;>
        (try simp_all [mathMin, lt_min_iff, not_le, not_lt, not_or, Except.isOk,
          Except.toBool]) <;>
        (try intro hr9) <;>
        (try cases ‹_ ∨ _›) <;>
        (try cases ‹_ ∨ _›) <;>
        (try assumption) <;>
        (try nlinarith [hclip]) <;>
        (try (exfalso; nlinarith [hclip]))
    · simp only [computeEffectiveDuration, repeatsCandidates, maxDurationCandidates,
        endAtCandidates, ensureValidEndAt, assertPositive, specEnabledCandidates, specEndAtOk,
        hmr, hmd, hea, hpd, hclip.not_le, if_false]
      (try split_ifs) <;>
        (try simp_all [mathMin, lt_min_iff, not_le, not_lt, not_or, Except.isOk,
          Except.toBool]) <;>
        (try split_ifs) <;>
        (try simp_all [mathMin, lt_min_iff, not_le, not_lt, not_or, Except.isOk,
          Except.toBool]) <;>
        (try intro hr9) <;>
        (try cases ‹_ ∨ _›) <;>
        (try cases ‹_ ∨ _›) <;>
        (try assumption) <;>
        (try nlinarith [hclip]) <;>
        (try (exfalso; nlinarith [hclip]))
  · simp only [computeEffectiveDuration, repeatsCandidates, maxDurationCandidates,
      endAtCandidates, ensureValidEndAt, assertPositive, specEnabledCandidates, specEndAtOk,
      hmr, hmd, hea, hclip.not_le, if_false]
    (try split_ifs) <;>
      (try simp_all [mathMin, lt_min_iff, not_le, not_lt, not_or, Except.isOk,
        Except.toBool]) <;>
      (try split_ifs) <;>
      (try simp_all [mathMin, lt_min_iff, not_le, not_lt, not_or, Except.isOk,
        Except.toBool]) <;>
      (try intro hr9) <;>
      (try cases ‹_ ∨ _›) <;>
      (try cases ‹_ ∨ _›) <;>
      (try assumption) <;>
      (try nlinarith [hclip]) <;>
      (try (exfalso; nlinarith [hclip]))
  · rcases hpd : parseDate iso with _ | v
    · simp only [computeEffectiveDuration, repeatsCandidates, maxDurationCandidates,
        endAtCandidates, ensureValidEndAt, assertPositive, specEnabledCandidates, specEndAtOk,
        hmr, hmd, hea, hpd, hclip.not_le, if_false]
      (try split_ifs) <;>
        (try simp_all [mathMin, lt_min_iff, not_le, not_lt, not_or, Except.isOk,
          Except.toBool]) <;>
        (try split_ifs) <;>
        (try simp_all [mathMin, lt_min_iff, not_le, not_lt, not_or, Except.isOk,
          Except.toBool]) <;>
        (try intro hr9) <;>
        (try cases ‹_ ∨ _›) <;>
        (try cases ‹_ ∨ _›) <;>
        (try assumption) <;>
        (try nlinarith [hclip]) <;>
        (try (exfalso; nlinarith [hclip]))
    · simp only [computeEffectiveDuration, repeatsCandidates, maxDurationCandidates,
        endAtCandidates, ensureValidEndAt, assertPositive, specEnabledCandidates, specEndAtOk,
        hmr, hmd, hea, hpd, hclip.not_le, if_false]
      (try split_ifs) <;>
        (try simp_all [mathMin, lt_min_iff, not_le, not_lt, not_or, Except.isOk,
          Except.toBool]) <;>
        (try split_ifs) <;>
        (try simp_all [mathMin, lt_min_iff, not_le, not_lt, not_or, Except.isOk,
          Except.toBool]) <;>
        (try intro hr9) <;>
        (try cases ‹_ ∨ _›) <;>
        (try cases ‹_ ∨ _›) <;>
        (try assumption) <;>
        (try nlinarith [hclip]) <;>
        (try (exfalso; nlinarith [hclip]))
  · simp only [computeEffectiveDuration, repeatsCandidates, maxDurationCandidates,
      endAtCandidates, ensureValidEndAt, assertPositive, specEnabledCandidates, specEndAtOk,
      hmr, hmd, hea, hclip.not_le, if_false]
    (try split_ifs) <;>
      (try simp_all [mathMin, lt_min_iff, not_le, not_lt, not_or, Except.isOk,
        Except.toBool]) <;>
      (try split_ifs) <;>
      (try simp_all [mathMin, lt_min_iff, not_le, not_lt, not_or, Except.isOk,
        Except.toBool]) <;>
      (try intro hr9) <;>
      (try cases ‹_ ∨ _›) <;>
      (try cases ‹_ ∨ _›) <;>
      (try assumption) <;>
      (try nlinarith [hclip]) <;>
      (try (exfalso; nlinarith [hclip]))
  · rcases hpd : parseDate iso with _ | v
    · simp only [computeEffectiveDuration, repeatsCandidates, maxDurationCandidates,
        endAtCandidates, ensureValidEndAt, assertPositive, specEnabledCandidates, specEndAtOk,
        hmr, hmd, hea, hpd, hclip.not_le, if_false]
      (try split_ifs) <;>
        (try simp_all [mathMin, lt_min_iff, not_le, not_lt, not_or, Except.isOk,
          Except.toBool]) <;>
        (try split_ifs) <;>
        (try simp_all [mathMin, lt_min_iff, not_le, not_lt, not_or, Except.isOk,
          Except.toBool]) <;>
        (try intro hr9) <;>
        (try cases ‹_ ∨ _›) <;>
        (try cases ‹_ ∨ _›) <;>
        (try assumption) <;>
        (try nlinarith [hclip]) <;>
        (try (exfalso; nlinarith [hclip]))
    · simp only [computeEffectiveDuration, repeatsCandidates, maxDurationCandidates,
        endAtCandidates, ensureValidEndAt, assertPositive, specEnabledCandidates, specEndAtOk,
        hmr, hmd, hea, hpd, hclip.not_le, if_false]
      (try split_ifs) <;>
        (try simp_all [mathMin, lt_min_iff, not_le, not_lt, not_or, Except.isOk,
          Except.toBool]) <;>
        (try split_ifs) <;>
        (try simp_all [mathMin, lt_min_iff, not_le, not_lt, not_or, Except.isOk,
          Except.toBool]) <;>
        (try intro hr9) <;>
        (try cases ‹_ ∨ _›) <;>
        (try cases ‹_ ∨ _›) <;>
        (try assumption) <;>
        (try nlinarith [hclip]) <;>
        (try (exfalso; nlinarith [hclip]))
  · simp only [computeEffectiveDuration, repeatsCandidates, maxDurationCandidates,
      endAtCandidates, ensureValidEndAt, assertPositive, specEnabledCandidates, specEndAtOk,
      hmr, hmd, hea, hclip.not_le, if_false]
    (try split_ifs) <;>
      (try simp_all [mathMin, lt_min_iff, not_le, not_lt, not_or, Except.isOk,
        Except.toBool]) <;>
      (try split_ifs) <;>
      (try simp_all [mathMin, lt_min_iff, not_le, not_lt, not_or, Except.isOk,
        Except.toBool]) <;>
      (try intro hr9) <;>
      (try cases ‹_ ∨ _›) <;>
      (try cases ‹_ ∨ _›) <;>
      (try assumption) <;>
      (try nlinarith [hclip]) <;>
      (try (exfalso; nlinarith [hclip]))
  · rcases hpd : parseDate iso with _ | v
    · simp only [computeEffectiveDuration, repeatsCandidates, maxDurationCandidates,
        endAtCandidates, ensureValidEndAt, assertPositive, specEnabledCandidates, specEndAtOk,
        hmr, hmd, hea, hpd, hclip.not_le, if_false]
      (try split_ifs) <;>
        (try simp_all [mathMin, lt_min_iff, not_le, not_lt, not_or, Except.isOk,
          Except.toBool]) <;>
        (try split_ifs) <;>
        (try simp_all [mathMin, lt_min_iff, not_le, not_lt, not_or, Except.isOk,
          Except.toBool]) <;>
        (try intro hr9) <;>
        (try cases ‹_ ∨ _›) <;>
        (try cases ‹_ ∨ _›) <;>
        (try assumption) <;>
        (try nlinarith [hclip]) <;>
        (try (exfalso; nlinarith [hclip]))
    · simp only [computeEffectiveDuration, repeatsCandidates, maxDurationCandidates,
        endAtCandidates, ensureValidEndAt, assertPositive, specEnabledCandidates, specEndAtOk,
        hmr, hmd, hea, hpd, hclip.not_le, if_false]
      (try split_ifs) <;>
        (try simp_all [mathMin, lt_min_iff, not_le, not_lt, not_or, Except.isOk,
          Except.toBool]) <;>
        (try split_ifs) <;>
        (try simp_all [mathMin, lt_min_iff, not_le, not_lt, not_or, Except.isOk,
          Except.toBool]) <;>
        (try intro hr9) <;>
        (try cases ‹_ ∨ _›) <;>
        (try cases ‹_ ∨ _›) <;>
        (try assumption) <;>
        (try nlinarith [hclip]) <;>
        (try (exfalso; nlinarith [hclip]))

/-- Claim C5 witness: the worked example of the specification — clip 10 s,
8 repeats (80 s), cap 50 s, end time 45 s from now — succeeds with the
minimum 45 and the full candidate list. -/
theorem computeEffectiveDuration_spec_check :
    computeEffectiveDuration c5Parse c5Input =
      Except.ok ⟨45, [⟨CandidateReason.repeats, 80⟩, ⟨CandidateReason.maxDuration, 50⟩,
        ⟨CandidateReason.endAt, 45⟩]⟩ ∧
    (computeEffectiveDuration c5Parse c5Input).isOk = true := by
  have H := computeEffectiveDuration_spec c5Parse c5Input (by norm_num [c5Input])
  constructor
  · simp +decide [computeEffectiveDuration, repeatsCandidates, maxDurationCandidates,
      endAtCandidates, ensureValidEndAt, assertPositive, truthyNum, truthyStr,
      c5Parse, c5Input, mathMin]
    norm_num
  · exact H.2.mpr (by
      simp +decide [specEnabledCandidates, specEndAtOk, c5Input, c5Parse, truthyNum,
        truthyStr])

/-! ## Claim C4: the failure path of start -/

theorem addFile_repo (s : ServiceState) (p : String) : (addFile s p).repo = s.repo := rfl

theorem addFile_activeSessions (s : ServiceState) (p : String) :
    (addFile s p).activeSessions = s.activeSessions := rfl

theorem addFile_files (s : ServiceState) (p : String) :
    (addFile s p).files = s.files ++ [p] := rfl

theorem startCatch_sessions (s : ServiceState) (i msg : String) :
    (startCatch s i msg).repo.sessions =
      updateRow s.repo.sessions i (fun row => failedRowOf row msg s.now) := rfl

theorem startCatch_activeSessions (s : ServiceState) (i msg : String) :
    (startCatch s i msg).activeSessions = s.activeSessions := rfl

theorem startCatch_files (s : ServiceState) (i msg : String) :
    (startCatch s i msg).files = s.files := rfl

theorem find?_append_none {A : Type} (l1 l2 : List A) (p : A → Bool) :
    l1.find? p = none → (l1 ++ l2).find? p = l2.find? p := by
  induction l1 with
  | nil => intro _; rfl
  | cons hd tl ih =>
    intro h
    by_cases hp : p hd
    · rw [List.find?_cons_of_pos _ hp] at h
      exact absurd h (by simp)
    · rw [List.find?_cons_of_neg _ hp] at h
      rw [List.cons_append, List.find?_cons_of_neg _ hp]
      exact ih h

theorem createSession_find?_self (r : RepoState) (i profileId startedAt : String)
    (hfresh : ∀ row ∈ r.sessions, row.id ≠ i) :
    (r.createSession i profileId startedAt).sessions.find? (fun row => row.id == i) =
      some { id := i, profileId := profileId, startedAt := startedAt, endedAt := none,
             state := SessionState.idle, broadcastId := none, streamId := none,
             errorCode := none, errorMessage := none } := by
  unfold RepoState.createSession
  have hnone : r.sessions.find? (fun row => row.id == i) = none :=
    List.find?_eq_none.mpr fun x hx => by simp [hfresh x hx]
  rw [find?_append_none _ _ _ hnone]
  simp

theorem attach_find?_isSome (r : RepoState) (i b st j : String) :
    ((r.attachYoutubeResources i b st).sessions.find? (fun row => row.id == j)).isSome =
      (r.sessions.find? (fun row => row.id == j)).isSome := by
  unfold RepoState.attachYoutubeResources
  rw [updateRow_find? r.sessions i j
    (fun row => { row with broadcastId := some b, streamId := some st }) (fun r => rfl)]
  simp

theorem startCatch_main (sL s0 : ServiceState) (i msg clip : String)
    (P : Prop)
    (hsome : (sL.repo.sessions.find? (fun r => r.id == i)).isSome = true)
    (hact : sL.activeSessions = s0.activeSessions)
    (hAct0 : lookupActive s0 i = none)
    (hfil : P → clip ∈ sL.files) :
    (∃ row, (startCatch sL i msg).repo.sessions.find? (fun r => r.id == i) = some row ∧
      row.state = SessionState.failed ∧ row.errorCode = some "SESSION_START_FAILED" ∧
      row.errorMessage = some msg) ∧
    lookupActive (startCatch sL i msg) i = none ∧
    (P → clip ∈ (startCatch sL i msg).files) := by
  obtain ⟨row, hrow⟩ := Option.isSome_iff_exists.mp hsome
  have hid : row.id = i := by simpa using List.find?_some hrow
  refine ⟨⟨failedRowOf row msg sL.now, ?_, rfl, rfl, rfl⟩, ?_, ?_⟩
  · rw [startCatch_sessions, updateRow_find? sL.repo.sessions i i
      (fun row => failedRowOf row msg sL.now) (fun r => rfl), hrow]
    simp [hid]
  · unfold lookupActive
    rw [startCatch_activeSessions, hact]
    exact hAct0
  · intro h
    rw [startCatch_files]
    exact hfil h

/-- Claim C4 counterexample: in an otherwise empty service, a start whose
trim succeeds and whose provisioning call then throws re-throws the error,
yet the temporary prepared clip is still on disk afterwards and no removal
was ever attempted — the catch block of start never removes the clip. -/
theorem start_failure_keeps_clip_cx :
    (start c4Env c4State c4Cfg).2 = Except.error "provision exploded" ∧
    clipPathOf "/tmp" "s1" ∈ (start c4Env c4State c4Cfg).1.files ∧
    countRemoveFile (clipPathOf "/tmp" "s1") (start c4Env c4State c4Cfg).1.effects = 0 := by
  decide

/-- Claim C4 (amended): if start fails after successful validation at any
awaited step — trim, probe, duration resolution, provisioning, or the
subprocess start — the error is re-thrown to the caller, the persisted row
ends in state failed with code SESSION_START_FAILED and the thrown message,
and no ActiveSession is registered; however, when the trim step had already
succeeded the temporary prepared clip is NOT removed on this failure path
(it stays in the files set), contrary to the specification. -/
theorem start_failure_semantics (env : StartEnv) (s : ServiceState) (cfg : SessionConfig)
    (e : String)
    (hparse : sessionConfigParse env.isDatetime cfg = Except.ok cfg)
    (hfreshRow : ∀ row ∈ s.repo.sessions, row.id ≠ env.sessionId)
    (hfreshA : lookupActive s env.sessionId = none)
    (herr : (start env s cfg).2 = Except.error e) :
    (∃ row, (start env s cfg).1.repo.sessions.find?
        (fun r => r.id == env.sessionId) = some row ∧
      row.state = SessionState.failed ∧
      row.errorCode = some "SESSION_START_FAILED" ∧
      row.errorMessage = some e) ∧
    lookupActive (start env s cfg).1 env.sessionId = none ∧
    (env.trimResult = Except.ok () →
      clipPathOf s.tempDir env.sessionId ∈ (start env s cfg).1.files) := by
  have hrow0 := createSession_find?_self s.repo env.sessionId cfg.profileId
    env.startedAt hfreshRow
  unfold start at herr ⊢
  rw [hparse] at herr ⊢
  rcases htr : env.trimResult with etrim | utrim
  · simp only [htr] at herr ⊢
    rw [Except.error.injEq] at herr
    subst herr
    refine startCatch_main _ s _ _ _ _ ?_ ?_ hfreshA ?_
    · simp only [record_sessions, transition_find?_isSome, hrow0, Option.isSome_some]
    · simp only [record_activeSessions, transition_activeSessions]
    · exact fun h => absurd h (by simp)
  · rcases hpr : env.probeResult with eprobe | clipDur
    · simp only [htr, hpr] at herr ⊢
      rw [Except.error.injEq] at herr
      subst herr
      refine startCatch_main _ s _ _ _ _ ?_ ?_ hfreshA ?_
      · simp only [record_sessions, transition_find?_isSome, addFile_repo, hrow0,
          Option.isSome_some]
      · simp only [record_activeSessions, transition_activeSessions,
          addFile_activeSessions]
      · intro _
        simp only [addFile_files, record_files, transition_files]
        exact List.mem_append_right _ (by simp)
    · rcases hdur : computeEffectiveDuration env.parseDate
          ⟨clipDur, cfg.stop, env.nowUtcMs⟩ with edur | comp
      · simp only [htr, hpr, hdur] at herr ⊢
        rw [Except.error.injEq] at herr
        subst herr
        refine startCatch_main _ s _ _ _ _ ?_ ?_ hfreshA ?_
        · simp only [record_sessions, transition_find?_isSome, addFile_repo, hrow0,
            Option.isSome_some]
        · simp only [record_activeSessions, transition_activeSessions,
            addFile_activeSessions]
        · intro _
          simp only [addFile_files, record_files, transition_files]
          exact List.mem_append_right _ (by simp)
      · rcases hprov : env.provisionResult with eprov | prov
        · simp only [htr, hpr, hdur, hprov] at herr ⊢
          rw [Except.error.injEq] at herr
          subst herr
          refine startCatch_main _ s _ _ _ _ ?_ ?_ hfreshA ?_
          · simp only [record_sessions, transition_find?_isSome, addFile_repo, hrow0,
              Option.isSome_some]
          · simp only [record_activeSessions, transition_activeSessions,
              addFile_activeSessions]
          · intro _
            simp only [record_files, transition_files, addFile_files]
            exact List.mem_append_right _ (by simp)
        · rcases hloop : env.startLoopResult with eloop | uloop
          · simp only [htr, hpr, hdur, hprov, hloop] at herr ⊢
            rw [Except.error.injEq] at herr
            subst herr
            refine startCatch_main _ s _ _ _ _ ?_ ?_ hfreshA ?_
            · simp only [record_sessions, transition_find?_isSome, addFile_repo,
                attach_find?_isSome, hrow0, Option.isSome_some]
            · simp only [record_activeSessions, transition_activeSessions,
                addFile_activeSessions]
            · intro _
              simp only [record_files, transition_files, addFile_files]
              exact List.mem_append_right _ (by simp)
          · simp only [htr, hpr, hdur, hprov, hloop] at herr
            exact Except.noConfusion herr

/-- Claim C4 witness: the amended failure semantics at the concrete
provisioning failure c4Env / c4State / c4Cfg. -/
theorem start_failure_semantics_check :
    lookupActive (start c4Env c4State c4Cfg).1 "s1" = none ∧
    clipPathOf "/tmp" "s1" ∈ (start c4Env c4State c4Cfg).1.files := by
  have H := start_failure_semantics c4Env c4State c4Cfg "provision exploded"
    (by decide) (by simp [c4State]) (by decide) (by decide)
  exact ⟨H.2.1, H.2.2 rfl⟩

/-! ## Claim C8: redaction of subprocess log lines -/

theorem recordFfmpegChunk_events (s : ServiceState) (id raw : String) :
    (recordFfmpegChunk s id raw).repo.events = s.repo.events ∨
    (recordFfmpegChunk s id raw).repo.events = s.repo.events ++
      [{ sessionId := id, ts := s.now, level := EventLevel.info, code := "FFMPEG_LOG",
         message := jsTrim (redactSensitive raw) }] := by
  unfold recordFfmpegChunk onLogHandler ffmpegLogLine
  split_ifs with h
  · right
    rfl
  · left
    rfl

theorem maskChars_no_echo (t : List Char) (hlen : 4 ≤ t.length) (hstar : '*' ∉ t) :
    ¬ t <:+: maskChars t := by
  intro hinf
  have hlenA : (t.take 3).length = 3 := by
    rw [List.length_take]
    omega
  have hlenB : (t.drop (t.length - 3)).length = 3 := by
    rw [List.length_drop]
    omega
  obtain ⟨p, q, hpq⟩ := hinf
  have hlen9 : p.length + t.length + q.length = 9 := by
    have hc := congrArg List.length hpq
    simp only [List.length_append, maskChars, hlenA, hlenB, List.length_cons,
      List.length_nil] at hc
    omega
  have hp5 : p.length ≤ 5 := by omega
  have hile : p.length ≤ max p.length 3 := le_max_left _ _
  have h3i : 3 ≤ max p.length 3 := le_max_right _ _
  have hi5 : max p.length 3 ≤ 5 := max_le hp5 (by omega)
  have hitlt : max p.length 3 < p.length + t.length := Nat.max_lt.mpr ⟨by omega, by omega⟩
  have hstarAt : (maskChars t).get? (max p.length 3) = some '*' := by
    unfold maskChars
    rw [List.get?_append (show max p.length 3 < (t.take 3 ++ (['*', '*', '*'] : List Char)).length by
      simp only [List.length_append, hlenA, List.length_cons, List.length_nil]
      omega)]
    rw [List.get?_append_right (show (t.take 3).length ≤ max p.length 3 by
      rw [hlenA]; exact h3i)]
    rw [hlenA]
    have hcases : max p.length 3 - 3 = 0 ∨ max p.length 3 - 3 = 1 ∨
        max p.length 3 - 3 = 2 := by omega
    rcases hcases with hc | hc | hc <;> rw [hc] <;> rfl
  have htokAt : (maskChars t).get? (max p.length 3) =
      t.get? (max p.length 3 - p.length) := by
    rw [← hpq]
    rw [List.get?_append (show max p.length 3 < (p ++ t).length by
      rw [List.length_append]; omega)]
    rw [List.get?_append_right hile]
  have hsome : t.get? (max p.length 3 - p.length) = some '*' :=
    htokAt.symm.trans hstarAt
  exact hstar (List.get?_mem hsome)

theorem takeClass1_class (cls : Char → Bool) (l run rest : List Char)
    (h : takeClass1 cls l = some (run, rest)) : ∀ c ∈ run, cls c = true := by
  simp only [takeClass1] at h
  split at h
  · exact absurd h (by simp)
  · simp only [Option.some.injEq, Prod.mk.injEq] at h
    intro c hc
    rw [← h.1] at hc
    exact List.mem_takeWhile_imp hc

theorem matchUrlKey_token_class (scheme l : List Char) (h : RegexHit)
    (hm : matchUrlKey scheme l = some h) : ∀ c ∈ h.token, keyChar c = true := by
  unfold matchUrlKey at hm
  repeat' split at hm
  all_goals try exact Option.noConfusion hm
  rename_i key r6 heq
  obtain rfl := Option.some_inj.mp hm
  intro c hc
  exact takeClass1_class _ _ _ _ heq c hc

theorem matchBearer_token_class (l : List Char) (h : RegexHit)
    (hm : matchBearer l = some h) : ∀ c ∈ h.token, bearerTokenChar c = true := by
  unfold matchBearer at hm
  repeat' split at hm
  all_goals try exact Option.noConfusion hm
  rename_i tok r3 heq
  obtain rfl := Option.some_inj.mp hm
  intro c hc
  exact takeClass1_class _ _ _ _ heq c hc

theorem matchUrlKey_token_no_echo (scheme l : List Char) (h : RegexHit)
    (hm : matchUrlKey scheme l = some h) (hlen : 4 ≤ h.token.length) :
    ¬ h.token <:+: maskChars h.token := by
  apply maskChars_no_echo h.token hlen
  intro hmem
  have hc := matchUrlKey_token_class scheme l h hm _ hmem
  exact absurd hc (by decide)

theorem matchBearer_token_no_echo (l : List Char) (h : RegexHit)
    (hm : matchBearer l = some h) (hlen : 4 ≤ h.token.length) :
    ¬ h.token <:+: maskChars h.token := by
  apply maskChars_no_echo h.token hlen
  intro hmem
  have hc := matchBearer_token_class l h hm _ hmem
  exact absurd hc (by decide)

/-- Claim C8 counterexample: a three-character stream key in an rtmp ingest
URL survives redaction in full — the mask keeps the first three and last
three characters, so the stored FFMPEG_LOG event message still contains the
whole key abc. -/
theorem redaction_short_key_survives_cx :
    (recordFfmpegChunk c4State "s1" "rtmp://h/p/abc").repo.events =
      [{ sessionId := "s1", ts := "t1", level := EventLevel.info, code := "FFMPEG_LOG",
         message := "rtmp://h/p/abc***abc" }] ∧
    "abc".data <:+: "rtmp://h/p/abc***abc".data := by
  constructor
  · rfl
  · decide

/-- Claim C8 (amended): every subprocess log chunk is passed through
redactSensitive before it is recorded — the stored event list either gains
exactly one FFMPEG_LOG info event carrying the trimmed redacted line or (for
a whitespace-only line) nothing.  For every matched token that is at least
four characters long and contains no asterisk, the mask
`token.slice(0,3) + "***" + token.slice(-3)` no longer contains the token;
every rtmp/rtmps stream key and every Bearer token the patterns match is
asterisk-free by its character class, so those tokens never survive their
mask when they are at least four characters long.  A matched token of three
or fewer characters, however, survives inside its own mask, and a
star-bearing access or refresh token value can survive as well, so the
specification claim is false. -/
theorem ffmpeg_log_redaction_amended :
    (∀ (s : ServiceState) (id raw : String),
      (recordFfmpegChunk s id raw).repo.events = s.repo.events ∨
      (recordFfmpegChunk s id raw).repo.events = s.repo.events ++
        [{ sessionId := id, ts := s.now, level := EventLevel.info, code := "FFMPEG_LOG",
           message := jsTrim (redactSensitive raw) }]) ∧
    (∀ t : List Char, 4 ≤ t.length → '*' ∉ t → ¬ t <:+: maskChars t) ∧
    (∀ (scheme l : List Char) (h : RegexHit), matchUrlKey scheme l = some h →
      4 ≤ h.token.length → ¬ h.token <:+: maskChars h.token) ∧
    (∀ (l : List Char) (h : RegexHit), matchBearer l = some h →
      4 ≤ h.token.length → ¬ h.token <:+: maskChars h.token) :=
  ⟨recordFfmpegChunk_events, maskChars_no_echo, matchUrlKey_token_no_echo,
    matchBearer_token_no_echo⟩

/-- Claim C8 witness: the amended theorem at a concrete chunk, a concrete
four-character star-free token, a concrete rtmp stream-key match, and a
concrete Bearer match. -/
theorem ffmpeg_log_redaction_amended_check :
    ((recordFfmpegChunk c4State "s1" "Bearer abcd1234").repo.events =
        c4State.repo.events ∨
      (recordFfmpegChunk c4State "s1" "Bearer abcd1234").repo.events =
        c4State.repo.events ++
        [{ sessionId := "s1", ts := c4State.now, level := EventLevel.info,
           code := "FFMPEG_LOG",
           message := jsTrim (redactSensitive "Bearer abcd1234") }]) ∧
    (4 ≤ "abcd".data.length ∧ '*' ∉ "abcd".data ∧
      ¬ "abcd".data <:+: maskChars "abcd".data) ∧
    matchUrlKey "rtmp://".toList "rtmp://h/p/wxyz".toList =
      some ⟨"rtmp://h/p/".data, "wxyz".data, [], []⟩ ∧
    ¬ "wxyz".data <:+: maskChars "wxyz".data ∧
    matchBearer "Bearer tok.en1".toList =
      some ⟨"Bearer ".data, "tok.en1".data, [], []⟩ ∧
    ¬ "tok.en1".data <:+: maskChars "tok.en1".data :=
  ⟨ffmpeg_log_redaction_amended.1 c4State "s1" "Bearer abcd1234",
    ⟨by decide, by decide,
      ffmpeg_log_redaction_amended.2.1 ("abcd".data) (by decide) (by decide)⟩,
    rfl,
    ffmpeg_log_redaction_amended.2.2.1 ("rtmp://".toList) ("rtmp://h/p/wxyz".toList)
      ⟨"rtmp://h/p/".data, "wxyz".data, [], []⟩ rfl (by decide),
    rfl,
    ffmpeg_log_redaction_amended.2.2.2 ("Bearer tok.en1".toList)
      ⟨"Bearer ".data, "tok.en1".data, [], []⟩ rfl (by decide)⟩

/-! ## Claim C9: errorCode and errorMessage set together -/

theorem applyRepoOp_errfields (r : RepoState) (op : RepoOp) (hop : goodFailArgs op)
    (hinv : ∀ row ∈ r.sessions,
      (truthyStr row.errorCode).isSome = (truthyStr row.errorMessage).isSome) :
    ∀ row ∈ (applyRepoOp r op).sessions,
      (truthyStr row.errorCode).isSome = (truthyStr row.errorMessage).isSome := by
  cases op with
  | createSession id profileId startedAt =>
    intro row hrow
    rcases List.mem_append.mp hrow with h | h
    · exact hinv row h
    · simp only [List.mem_singleton] at h
      subst h
      rfl
  | updateSessionState id st =>
    intro row hrow
    obtain ⟨row0, h0, heq⟩ := List.mem_map.mp hrow
    subst heq
    by_cases hid : row0.id == id <;> simp only [hid, if_true, if_false, ite_true,
      ite_false, Bool.false_eq_true, if_neg, reduceIte] <;> exact hinv row0 h0
  | attachYoutubeResources id b st =>
    intro row hrow
    obtain ⟨row0, h0, heq⟩ := List.mem_map.mp hrow
    subst heq
    by_cases hid : row0.id == id <;> simp only [hid, reduceIte] <;> exact hinv row0 h0
  | completeSession id ts =>
    intro row hrow
    obtain ⟨row0, h0, heq⟩ := List.mem_map.mp hrow
    subst heq
    by_cases hid : row0.id == id <;> simp only [hid, reduceIte] <;> exact hinv row0 h0
  | failSession id code message ts =>
    intro row hrow
    obtain ⟨row0, h0, heq⟩ := List.mem_map.mp hrow
    subst heq
    obtain ⟨hcode, hmsg⟩ := hop
    by_cases hid : row0.id == id
    · simp only [hid, reduceIte]
      show (truthyStr (some code)).isSome = (truthyStr (some message)).isSome
      simp [truthyStr, hcode, hmsg]
    · simp only [hid, reduceIte]
      exact hinv row0 h0
  | addEvent id level code message ts =>
    intro row hrow
    exact hinv row hrow

theorem foldl_errfields (ops : List RepoOp) :
    ∀ (r : RepoState), (∀ op ∈ ops, goodFailArgs op) →
    (∀ row ∈ r.sessions,
      (truthyStr row.errorCode).isSome = (truthyStr row.errorMessage).isSome) →
    ∀ row ∈ (ops.foldl applyRepoOp r).sessions,
      (truthyStr row.errorCode).isSome = (truthyStr row.errorMessage).isSome := by
  induction ops with
  | nil =>
    intro r _ hr
    simpa using hr
  | cons op rest ih =>
    intro r hops hr
    simp only [List.foldl_cons]
    exact ih _ (fun o ho => hops o (List.mem_cons_of_mem _ ho))
      (applyRepoOp_errfields r op (hops op (List.mem_cons_self _ _)) hr)

/-- Claim C9 counterexample: a failSession call whose message is the empty
string produces a summary with errorCode present and errorMessage absent —
the two truthiness guards of getSessionSummary act independently, so the
fields are not set together in every reachable summary. -/
theorem error_fields_not_together_cx :
    ∃ summary, (runRepo c9OpsBad).getSessionSummary "s1" = some summary ∧
      summary.errorCode = some "X" ∧ summary.errorMessage = none := by
  refine ⟨_, rfl, rfl, rfl⟩

/-- Claim C9 (amended): in every summary the repository produces from a
history whose failSession calls carry a non-empty code and a non-empty
message, the errorCode field is present if and only if the errorMessage
field is present; a failSession call with an empty message breaks the
invariant, because getSessionSummary copies each column under its own
truthiness guard. -/
theorem error_fields_set_together (ops : List RepoOp)
    (hops : ∀ op ∈ ops, goodFailArgs op) (id : String) (summary : SessionSummary)
    (hsum : (runRepo ops).getSessionSummary id = some summary) :
    summary.errorCode.isSome = summary.errorMessage.isSome := by
  unfold runRepo RepoState.getSessionSummary at hsum
  obtain ⟨row, hrow, hback⟩ := Option.map_eq_some'.mp hsum
  have hmem : row ∈ (List.foldl applyRepoOp emptyRepo ops).sessions :=
    List.mem_of_find?_eq_some hrow
  have hinv := foldl_errfields ops emptyRepo hops
    (by intro row h; simp [emptyRepo] at h) row hmem
  rw [← hback]
  exact hinv

/-- Claim C9 witness: the invariant at a two-call history with proper
failure arguments. -/
theorem error_fields_set_together_check :
    ∃ summary, (runRepo c9OpsGood).getSessionSummary "s1" = some summary ∧
      summary.errorCode.isSome = summary.errorMessage.isSome := by
  refine ⟨_, rfl, ?_⟩
  refine error_fields_set_together c9OpsGood ?_ "s1" _ rfl
  intro op hop
  simp only [c9OpsGood, List.mem_cons, List.not_mem_nil, or_false] at hop
  rcases hop with h | h
  · subst h
    trivial
  · subst h
    exact ⟨by decide, by decide⟩

end Actc
